import Mathlib

/-!
Verification of the `dubbo-py` repository: a shallow embedding in Lean 4 of the
Hessian-2 codec (`dubbo/codec/hessian2.py`), its byte-level helpers
(`dubbo/utils.py`) and the server's request-handling response mapping
(`dubbo/server.py`), together with theorems settling the specification
claims about them.

Conventions of the embedding:
* Python `bytes` values are `List ℕ` with every element `< 256`.
* Python `str` values are `List ℕ` of Unicode code points.
* Python `int` is `ℤ` (unbounded); the repository's `long` subclass of `int`
  (defined in `dubbo/__init__.py`) is a separate constructor carrying a `ℤ`.
* Python `float` (IEEE-754 binary64) is modelled exactly as the rational value
  of the double; every arithmetic operation rounds its exact rational result
  to the nearest representable double (ties to even), which is bit-for-bit
  the IEEE behaviour for the finite, non-overflowing values that appear here.
* Raising an exception is modelled with `Except PyErr` (or an error-carrying
  state monad for the decoder, since Python exceptions do not roll back the
  stream position).
-/

deriving instance DecidableEq for Except

namespace DubboPy

/-- Python exception kinds raised by the embedded code paths. -/
inductive PyErr where
  | eofError
  | runtimeError (msg : String)
  | overflowError
  | structError
  | typeError
  | attributeError
  | valueError
  | indexError
  | unicodeError
  | floatSpecial
  | fuelExhausted
  deriving DecidableEq, Repr

/-- Code points of an ASCII Lean string, used both for Python `str` values and
(for ASCII content) Python `bytes` literals. -/
def pystr (s : String) : List ℕ := s.toList.map Char.toNat

/-- `utils.bytes_to_int(bs)` with `signed=False`:
`reduce(lambda x, y: x * 256 + y, bs)` (callers never pass an empty string). -/
def bytes_to_int (bs : List ℕ) : ℕ := bs.foldl (fun x y => x * 256 + y) 0

/-- `utils.bytes_to_int(bs, signed=True)`: `int.from_bytes(bs, 'big', signed=True)`. -/
def bytes_to_int_signed (bs : List ℕ) : ℤ :=
  let u := bytes_to_int bs
  if u < 2 ^ (8 * bs.length - 1) then (u : ℤ) else (u : ℤ) - 2 ^ (8 * bs.length)

/-- `utils.bytes_to_long(bs)`: same as the unsigned `bytes_to_int`. -/
def bytes_to_long (bs : List ℕ) : ℕ := bytes_to_int bs

/-- Big-endian digits of `v` in `len` bytes (the value of `int.to_bytes` /
`struct.pack` once the range checks have passed). -/
def beBytes (v : ℕ) (len : ℕ) : List ℕ :=
  (List.range len).map (fun i => v / 256 ^ (len - 1 - i) % 256)

/-- Structurally recursive `floor (log2 n)` (0 for `n = 0`); the fuel is ample
for every number occurring in this development. -/
def log2F : ℕ → ℕ → ℕ
  | 0, _ => 0
  | f + 1, n => if n < 2 then 0 else log2F f (n / 2) + 1

def pyLog2 (n : ℕ) : ℕ := log2F 4096 n

/-- Python `int.bit_length()`. -/
def bit_length (n : ℤ) : ℕ := if n = 0 then 0 else pyLog2 n.natAbs + 1

/-- Python `int.to_bytes(len, 'big', signed=signed)`; `OverflowError` when the
value does not fit. -/
def to_bytes (n : ℤ) (len : ℕ) (signed : Bool) : Except PyErr (List ℕ) :=
  if signed then
    if -(2 ^ (8 * len - 1) : ℤ) ≤ n ∧ n < 2 ^ (8 * len - 1) then
      .ok (beBytes ((n % (2 ^ (8 * len) : ℤ)).toNat) len)
    else .error .overflowError
  else
    if 0 ≤ n ∧ n < (2 ^ (8 * len) : ℤ) then .ok (beBytes n.toNat len)
    else .error .overflowError

/-- `utils.int_to_bytes(num, length=None, signed=False)`.  The `length == 4`
case is `struct.pack('>i' / '>I')` (raising `struct.error` out of range);
otherwise the value is emitted in its minimal byte length and, when a length
is given, left-padded with zero bytes. -/
def int_to_bytes (num : ℤ) (length : Option ℕ := none) (signed : Bool := false) :
    Except PyErr (List ℕ) :=
  if length = some 4 then
    if signed then
      if -(2 ^ 31 : ℤ) ≤ num ∧ num < 2 ^ 31 then .ok (beBytes ((num % (2 ^ 32 : ℤ)).toNat) 4)
      else .error .structError
    else
      if 0 ≤ num ∧ num < (2 ^ 32 : ℤ) then .ok (beBytes num.toNat 4)
      else .error .structError
  else do
    let ib ← if num = 0 then .ok [0] else to_bytes num ((bit_length num + 7) / 8) signed
    match length with
    | some L => .ok (List.replicate (L - ib.length) 0 ++ ib)
    | none => .ok ib

/-- `utils.long_to_bytes(num)`: `struct.pack('>Q', num)`. -/
def long_to_bytes (num : ℤ) : Except PyErr (List ℕ) :=
  if 0 ≤ num ∧ num < (2 ^ 64 : ℤ) then .ok (beBytes num.toNat 8) else .error .structError

/-! ### Exact model of IEEE-754 binary64 over ℚ

All rational values are built with `mkRat` and inspected through `.num` / `.den`
so that every operation is plain integer arithmetic (kernel-reducible); the
arithmetic of the embedded floats rounds each exact result to the nearest
binary64 value, which is exactly IEEE behaviour for the finite values at hand. -/

/-- For a positive rational `n / d`, the exponent `e` with `2^e ≤ n/d < 2^(e+1)`. -/
def qExp (n d : ℕ) : ℤ :=
  let e0 : ℤ := (pyLog2 n : ℤ) - (pyLog2 d : ℤ)
  if d * 2 ^ e0.toNat ≤ n * 2 ^ (-e0).toNat then e0 else e0 - 1

/-- Rounded division `round (a / b)`, ties to even (`b > 0`). -/
def rdivEven (a b : ℕ) : ℕ :=
  let q := a / b
  let r := a % b
  if b < 2 * r then q + 1
  else if 2 * r < b then q
  else if q % 2 = 0 then q else q + 1

/-- The 53-bit mantissa of `n / d` at exponent `e`: `round (n/d · 2^(52-e))`. -/
def mant53 (n d : ℕ) (e : ℤ) : ℕ :=
  let k : ℤ := 52 - e
  if 0 ≤ k then rdivEven (n * 2 ^ k.toNat) d else rdivEven n (d * 2 ^ (-k).toNat)

/-- `sign · m · 2^e` as a rational (`neg` gives the sign). -/
def qmk (neg : Bool) (m : ℕ) (e : ℤ) : ℚ :=
  let s : ℤ := if neg then -(m : ℤ) else (m : ℤ)
  if 0 ≤ e then mkRat (s * 2 ^ e.toNat) 1 else mkRat s (2 ^ (-e).toNat)

/-- Round a rational to the nearest binary64 value (ties to even), returning its
exact rational value.  Overflow to ±∞ is not modelled (no value in this
development comes near it). -/
def roundDouble (q : ℚ) : ℚ :=
  if q.num = 0 then mkRat 0 1
  else
    let neg := q.num < 0
    let n := q.num.natAbs
    let d := q.den
    let e := qExp n d
    if e < -1022 then qmk neg (rdivEven (n * 2 ^ 1074) d) (-1074)
    else
      let m := mant53 n d e
      if m = 2 ^ 53 then qmk neg (2 ^ 52) (e + 1 - 52)
      else qmk neg m (e - 52)

/-- The value of a Python float literal `num / den` (a literal denotes the
nearest double). -/
def pyfloat (num : ℤ) (den : ℕ) : ℚ := roundDouble (mkRat num den)

/-- Conversion of a Python int to float (rounds when beyond 2^53). -/
def intToFloat (n : ℤ) : ℚ := roundDouble (mkRat n 1)

/-- The exact product of two rationals (no rounding), via `mkRat`. -/
def qmul (a b : ℚ) : ℚ := mkRat (a.num * b.num) (a.den * b.den)

/-- The exact quotient of two rationals (no rounding), via `mkRat`. -/
def qdiv (a b : ℚ) : ℚ :=
  mkRat (a.num * (b.den : ℤ) * (if b.num < 0 then -1 else 1)) (a.den * b.num.natAbs)

/-- IEEE multiplication of two doubles. -/
def fmul (a b : ℚ) : ℚ := roundDouble (qmul a b)

/-- IEEE division of two doubles. -/
def fdiv (a b : ℚ) : ℚ := if b.num = 0 then mkRat 0 1 else roundDouble (qdiv a b)

/-- Python `int(x)` on a float: truncation toward zero. -/
def pytrunc (q : ℚ) : ℤ := Int.tdiv q.num (q.den : ℤ)

/-- The 64-bit pattern of the (already representable) double `q`. -/
def doubleBits (q : ℚ) : ℕ :=
  if q.num = 0 then 0
  else
    let s : ℕ := if q.num < 0 then 1 else 0
    let n := q.num.natAbs
    let d := q.den
    let e := qExp n d
    if e < -1022 then s * 2 ^ 63 + rdivEven (n * 2 ^ 1074) d
    else
      let m := mant53 n d e
      if m = 2 ^ 53 then s * 2 ^ 63 + (e + 1 + 1023).toNat * 2 ^ 52
      else s * 2 ^ 63 + (e + 1023).toNat * 2 ^ 52 + (m - 2 ^ 52)

/-- `utils.double_to_bytes(num)`: `struct.pack('>d', num)`. -/
def double_to_bytes (q : ℚ) : List ℕ := beBytes (doubleBits q) 8

/-- `utils.bytes_to_double(bs)`: `struct.unpack('>d', bs)`.  Infinities and NaN
(exponent field 2047) are outside the model. -/
def bytes_to_double (bs : List ℕ) : Except PyErr ℚ :=
  let bits := bytes_to_int bs
  let neg := bits / 2 ^ 63 = 1
  let ef : ℕ := bits / 2 ^ 52 % 2 ^ 11
  let fr : ℕ := bits % 2 ^ 52
  if ef = 2047 then .error .floatSpecial
  else if ef = 0 then .ok (qmk neg fr (-1074))
  else .ok (qmk neg (2 ^ 52 + fr) ((ef : ℤ) - 1075))

/-- The float literal `0.001` (used by the mill encodings). -/
def lit001 : ℚ := pyfloat 1 1000

/-- `utils.timestamp_to_datetime(ts)`, reduced to the resulting epoch-seconds
value: below `10e11` the timestamp is seconds, otherwise milliseconds
(`ts / 1000` is float division). -/
def timestamp_to_datetime (ts : ℤ) : ℚ :=
  if ts < 1000000000000 then mkRat ts 1 else fdiv (intToFloat ts) (intToFloat 1000)

/-! ### UTF-8 -/

/-- UTF-8 encoding of one code point (`str.encode()`; surrogates do not occur
in this development). -/
def utf8Cp (c : ℕ) : List ℕ :=
  if c < 0x80 then [c]
  else if c < 0x800 then [0xc0 + c / 64, 0x80 + c % 64]
  else if c < 0x10000 then [0xe0 + c / 4096, 0x80 + c / 64 % 64, 0x80 + c % 64]
  else [0xf0 + c / 262144, 0x80 + c / 4096 % 64, 0x80 + c / 64 % 64, 0x80 + c % 64]

/-- Python `str.encode()` over the code points. -/
def utf8Encode (cps : List ℕ) : List ℕ := (cps.map utf8Cp).flatten

/-- Is `b` a UTF-8 continuation byte? -/
def isCont (b : ℕ) : Bool := 0x80 ≤ b ∧ b ≤ 0xbf

/-- Worker for `utf8Decode`, structurally recursive on a fuel argument (one unit
per decoded sequence; every sequence consumes at least one byte, so fuel equal to
the byte length never runs out and the fuel-exhausted branch is unreachable). -/
def utf8DecodeF : ℕ → List ℕ → Except PyErr (List ℕ)
  | _, [] => .ok []
  | 0, _ :: _ => .error .unicodeError
  | f + 1, b :: rest =>
    if b < 0x80 then do
      let r ← utf8DecodeF f rest
      .ok (b :: r)
    else if 0xc2 ≤ b ∧ b ≤ 0xdf then
      match rest with
      | b2 :: r2 =>
        if isCont b2 then do
          let r ← utf8DecodeF f r2
          .ok (((b - 0xc0) * 64 + (b2 - 0x80)) :: r)
        else .error .unicodeError
      | [] => .error .unicodeError
    else if 0xe0 ≤ b ∧ b ≤ 0xef then
      match rest with
      | b2 :: b3 :: r3 =>
        let lo2 := if b = 0xe0 then 0xa0 else 0x80
        let hi2 := if b = 0xed then 0x9f else 0xbf
        if lo2 ≤ b2 ∧ b2 ≤ hi2 ∧ isCont b3 then do
          let r ← utf8DecodeF f r3
          .ok (((b - 0xe0) * 4096 + (b2 - 0x80) * 64 + (b3 - 0x80)) :: r)
        else .error .unicodeError
      | _ => .error .unicodeError
    else if 0xf0 ≤ b ∧ b ≤ 0xf4 then
      match rest with
      | b2 :: b3 :: b4 :: r4 =>
        let lo2 := if b = 0xf0 then 0x90 else 0x80
        let hi2 := if b = 0xf4 then 0x8f else 0xbf
        if lo2 ≤ b2 ∧ b2 ≤ hi2 ∧ isCont b3 ∧ isCont b4 then do
          let r ← utf8DecodeF f r4
          .ok (((b - 0xf0) * 262144 + (b2 - 0x80) * 4096 + (b3 - 0x80) * 64 + (b4 - 0x80)) :: r)
        else .error .unicodeError
      | _ => .error .unicodeError
    else .error .unicodeError

/-- Python `bytes.decode()` (UTF-8, strict): code points out, `UnicodeDecodeError`
on malformed input (overlong forms and surrogates rejected). -/
def utf8Decode (bs : List ℕ) : Except PyErr (List ℕ) := utf8DecodeF bs.length bs

/-! ### Python values

The mutually inductive family keeps lists, dict pairs and record fields as
dedicated types so that every function over values is structurally recursive
(hence kernel-reducible).  `long` is the repository's `long` subclass of `int`;
`float` carries whether the instance is of the repository's `double` subclass
of `float` (this only affects `type(x).__name__`); `pylist java` distinguishes
`JavaList` (`java.util.List`) from a plain `list`; `obj` is a `new_object`
namedtuple instance (class name, ordered fields).  Python `set` values and
`datetime` objects other than their epoch value are not modelled (no claim
involves them). -/

mutual
inductive PyValue where
  | none
  | bool (b : Bool)
  | int (n : ℤ)
  | long (n : ℤ)
  | float (isDouble : Bool) (q : ℚ)
  | str (cps : List ℕ)
  | bytes (bs : List ℕ)
  | pylist (java : Bool) (elems : PyList)
  | dict (pairs : PyPairs)
  | obj (cls : List ℕ) (fields : PyFields)
  | date (seconds : ℚ)
inductive PyList where
  | nil
  | cons (v : PyValue) (t : PyList)
inductive PyFields where
  | nil
  | cons (name : List ℕ) (v : PyValue) (t : PyFields)
inductive PyPairs where
  | nil
  | cons (k v : PyValue) (t : PyPairs)
end

deriving instance DecidableEq for PyValue

def plistLength : PyList → ℕ
  | .nil => 0
  | .cons _ t => plistLength t + 1

def pfieldsLength : PyFields → ℕ
  | .nil => 0
  | .cons _ _ t => pfieldsLength t + 1

def ppairsLength : PyPairs → ℕ
  | .nil => 0
  | .cons _ _ t => ppairsLength t + 1

def plistOf : List PyValue → PyList
  | [] => .nil
  | v :: t => .cons v (plistOf t)

def plistToList : PyList → List PyValue
  | .nil => []
  | .cons v t => v :: plistToList t

/-- The exact numeric value of a Python number (`bool` is an `int` subclass;
`long` is an `int` subclass; floats carry their exact value), `none` for
non-numbers.  Python `==` compares numbers by value across these types. -/
def numQ : PyValue → Option ℚ
  | .bool b => some (mkRat (if b then 1 else 0) 1)
  | .int n => some (mkRat n 1)
  | .long n => some (mkRat n 1)
  | .float _ q => some q
  | _ => Option.none

/-! Python `==` on the embedded values, fueled (every recursive call consumes
one unit; the `pyEq` wrapper supplies ample fuel).  Tuples (namedtuple
instances) compare by their value sequence; dicts compare order-insensitively;
list subclasses compare as lists. -/
mutual
def pyEqF : ℕ → PyValue → PyValue → Bool
  | 0, _, _ => false
  | _ + 1, .none, .none => true
  | _ + 1, .str s, .str t => s == t
  | _ + 1, .bytes s, .bytes t => s == t
  | f + 1, .pylist _ xs, .pylist _ ys => pyEqListF f xs ys
  | f + 1, .dict ps, .dict qs => ppairsLength ps == ppairsLength qs && pySubF f ps qs
  | f + 1, .obj _ fs, .obj _ gs => pyEqFieldsF f fs gs
  | _ + 1, .date s, .date t => s == t
  | _ + 1, a, b =>
    match numQ a, numQ b with
    | some x, some y => x == y
    | _, _ => false
def pyEqListF : ℕ → PyList → PyList → Bool
  | 0, _, _ => false
  | _ + 1, .nil, .nil => true
  | f + 1, .cons x xs, .cons y ys => pyEqF f x y && pyEqListF f xs ys
  | _ + 1, _, _ => false
def pyEqFieldsF : ℕ → PyFields → PyFields → Bool
  | 0, _, _ => false
  | _ + 1, .nil, .nil => true
  | f + 1, .cons _ x xs, .cons _ y ys => pyEqF f x y && pyEqFieldsF f xs ys
  | _ + 1, _, _ => false
def pySubF : ℕ → PyPairs → PyPairs → Bool
  | 0, _, _ => false
  | _ + 1, .nil, _ => true
  | f + 1, .cons k v t, qs =>
    (match pyLookupF f k qs with
     | some v' => pyEqF f v v'
     | Option.none => false) && pySubF f t qs
def pyLookupF : ℕ → PyValue → PyPairs → Option PyValue
  | 0, _, _ => Option.none
  | _ + 1, _, .nil => Option.none
  | f + 1, k, .cons k' v' t => if pyEqF f k k' then some v' else pyLookupF f k t
end

/-! A structural node count, used only to supply sufficient fuel to `pyEqF`. -/
mutual
def pySize : PyValue → ℕ
  | .pylist _ es => plSize es + 1
  | .dict ps => ppSize ps + 1
  | .obj _ fs => pfSize fs + 1
  | _ => 1
def plSize : PyList → ℕ
  | .nil => 1
  | .cons v t => pySize v + plSize t + 1
def pfSize : PyFields → ℕ
  | .nil => 1
  | .cons _ v t => pySize v + pfSize t + 1
def ppSize : PyPairs → ℕ
  | .nil => 1
  | .cons k v t => pySize k + pySize v + ppSize t + 1
end

/-- Python `==`. -/
def pyEq (a b : PyValue) : Bool := pyEqF (pySize a + pySize b + 1) a b

/-! Python hashability: lists and dicts are unhashable; a tuple is hashable
iff its elements are. -/
mutual
def isHashable : PyValue → Bool
  | .pylist _ _ => false
  | .dict _ => false
  | .obj _ fs => fieldsHashable fs
  | _ => true
def fieldsHashable : PyFields → Bool
  | .nil => true
  | .cons _ v t => isHashable v && fieldsHashable t
end

/-- `d[k] = v` on a Python dict: `TypeError` for unhashable keys, otherwise
replace the value of an `==`-equal key in place (keeping the original key and
position) or append. -/
def dictInsert (ps : PyPairs) (k v : PyValue) : Except PyErr PyPairs :=
  if isHashable k then .ok (go ps) else .error .typeError
where
  go : PyPairs → PyPairs
    | .nil => .cons k v .nil
    | .cons k' v' t => if pyEq k k' then .cons k' v t else .cons k' v' (go t)

/-- `d.get(k)` on a Python dict (`none` when absent). -/
def dictGet (ps : PyPairs) (k : PyValue) : Option PyValue :=
  match ps with
  | .nil => Option.none
  | .cons k' v' t => if pyEq k k' then some v' else dictGet t k

/-- Python truthiness (`bool(x)`). -/
def pyTruthy : PyValue → Bool
  | .none => false
  | .bool b => b
  | .int n => n ≠ 0
  | .long n => n ≠ 0
  | .float _ q => q.num ≠ 0
  | .str s => s ≠ []
  | .bytes bs => bs ≠ []
  | .pylist _ es => plistLength es ≠ 0
  | .dict ps => ppairsLength ps ≠ 0
  | .obj _ _ => true
  | .date _ => true

/-- `type(x).__name__` for the embedded values. -/
def typeName : PyValue → List ℕ
  | .none => pystr "NoneType"
  | .bool _ => pystr "bool"
  | .int _ => pystr "int"
  | .long _ => pystr "long"
  | .float d _ => if d then pystr "double" else pystr "float"
  | .str _ => pystr "str"
  | .bytes _ => pystr "bytes"
  | .pylist j _ => if j then pystr "java.util.List" else pystr "list"
  | .dict _ => pystr "dict"
  | .obj c _ => c
  | .date _ => pystr "datetime"

/-! ### The Hessian-2 encoder (`hessian2.encode_object`)

`encode_object(field, idx=0, cls_names=[])` dispatches on the runtime type of
`field`.  The non-recursive value branches (strings, ints, longs, floats) are
factored into standalone functions; `encode_object` calls them exactly where
the source dispatches recursively on a freshly built `str`/`int` argument
(class names, field names, container type names and lengths), which neither
reads nor mutates the class-name table.  The table parameter `cls` is threaded
explicitly: nested element/key/value encodings pass a fresh `[]` whose final
state is discarded, mirroring the fresh list objects in the source; field
values of a record instance share the caller's table. -/

/-- The `isinstance(field, str)` branch of `encode_object`: direct
(`≤ 0x1f`), short (`≤ 0x3ff`, tag `0x30 + high`), else `S` + 2-byte length
(`int_to_bytes` of the length, unpadded, as in the source). -/
def encode_str (s : List ℕ) : Except PyErr (List ℕ) := do
  let L := s.length
  if L ≤ 0x1f then
    let lb ← int_to_bytes L
    .ok (lb ++ utf8Encode s)
  else if L ≤ 0x3ff then
    let lb ← int_to_bytes (0x3000 + L)
    .ok (lb ++ utf8Encode s)
  else
    let lb ← int_to_bytes L
    .ok (0x53 :: (lb ++ utf8Encode s))

/-- The `isinstance(field, long)` branch of `encode_object`. -/
def encode_long (n : ℤ) : Except PyErr (List ℕ) :=
  if -0x08 ≤ n ∧ n ≤ 0x0f then int_to_bytes (n + 0xe0)
  else if -0x800 ≤ n ∧ n ≤ 0x7ff then int_to_bytes (0xf800 + n)
  else if -0x40000 ≤ n ∧ n ≤ 0x3ffff then int_to_bytes (0x3c0000 + n)
  else if -0x80000000 ≤ n ∧ n ≤ 0x7fffffff then do
    let b ← int_to_bytes n (some 4)
    .ok (0x59 :: b)
  else do
    let b ← long_to_bytes n
    .ok (0x4c :: b)

/-- The `isinstance(field, int)` branch of `encode_object`. -/
def encode_int (n : ℤ) : Except PyErr (List ℕ) :=
  if -0x10 ≤ n ∧ n ≤ 0x2f then int_to_bytes (n + 0x90)
  else if -0x800 ≤ n ∧ n ≤ 0x7ff then int_to_bytes (0xc800 + n)
  else if -0x40000 ≤ n ∧ n ≤ 0x3ffff then int_to_bytes (0xd40000 + n)
  else do
    let b ← int_to_bytes n (some 4)
    .ok (0x49 :: b)

/-- The mill / full-double tail of the float branch (reached when none of the
compact integral forms applied): `mills = int(field * 1000)`; if
`mills * 0.001 == field` emit `0x5f` + 4-byte signed mills, else `D` + IEEE
bytes. -/
def encode_float_tail (q : ℚ) : Except PyErr (List ℕ) := do
  let mills := pytrunc (fmul q (intToFloat 1000))
  if fmul (intToFloat mills) lit001 = q then
    let b ← int_to_bytes mills (some 4) true
    .ok (0x5f :: b)
  else
    .ok (0x44 :: double_to_bytes q)

/-- The `isinstance(field, (float, double))` branch of `encode_object`:
`int(field) == field` selects the integral forms (`0x5b`/`0x5c`/byte/short —
`field in range(lo, hi)` on an integral float is the bound check); otherwise
fall through to `encode_float_tail`. -/
def encode_float (q : ℚ) : Except PyErr (List ℕ) :=
  if q.den = 1 then
    let i := q.num
    if i = 0 then .ok [0x5b]
    else if i = 1 then .ok [0x5c]
    else if -128 ≤ i ∧ i < 128 then do
      let b ← int_to_bytes i none true
      .ok (0x5d :: b)
    else if -32768 ≤ i ∧ i < 32768 then do
      let b ← int_to_bytes i none true
      .ok (0x5e :: b)
    else encode_float_tail q
  else encode_float_tail q

/-- Code points of `'java.util.List'` (`type(JavaList(...)).__name__`). -/
def javaListName : List ℕ := pystr "java.util.List"

/-- First index of `x` in `l` (`list.index`; callers guarantee membership). -/
def listIdxOf (l : List (List ℕ)) (x : List ℕ) : ℕ := l.findIdx (· == x)

mutual
/-- `hessian2.encode_object(field, idx, cls_names)`, returning the bytes and
the final class-name table (the source mutates `cls_names` in place). -/
def encode_object : PyValue → ℕ → List (List ℕ) → Except PyErr (List ℕ × List (List ℕ))
  | .none, _, cls => .ok ([0x4e], cls)
  | .bool true, _, cls => .ok ([0x54], cls)
  | .bool false, _, cls => .ok ([0x46], cls)
  | .str s, _, cls => do
    let b ← encode_str s
    .ok (b, cls)
  | .dict ps, _, cls => do
    let body ← encode_pairs ps
    .ok (0x48 :: (body ++ [0x5a]), cls)
  | .pylist java es, _, cls => do
    let n := plistLength es
    let hd ←
      if n < 8 then
        if java then do
          let h ← int_to_bytes (n + 0x70)
          let tb ← encode_str javaListName
          .ok (h ++ tb)
        else do
          int_to_bytes (n + 0x78)
      else
        if java then do
          let tb ← encode_str javaListName
          let lb ← encode_int n
          .ok (0x56 :: (tb ++ lb))
        else do
          let lb ← encode_int n
          .ok (0x58 :: lb)
    let body ← encode_elems es
    .ok (hd ++ body, cls)
  | .long n, _, cls => do
    let b ← encode_long n
    .ok (b, cls)
  | .int n, _, cls => do
    let b ← encode_int n
    .ok (b, cls)
  | .float _ q, _, cls => do
    let b ← encode_float q
    .ok (b, cls)
  | .obj cn fs, idx, cls =>
    -- namedtuple instance: append the class name when new, then always emit
    -- the `C` definition block followed by the `0x60 + idx + index` ref byte
    let cls' := if cls.contains cn then cls else cls ++ [cn]
    do
      let nb ← encode_str cn
      let cb ← encode_int (pfieldsLength fs)
      let fb ← encode_field_names fs
      let rb ← int_to_bytes ((idx + listIdxOf cls' cn + 0x60 : ℕ))
      let (vb, cls2) ← encode_fields fs idx cls'
      .ok (0x43 :: (nb ++ cb ++ fb ++ rb ++ vb), cls2)
  | .bytes _, _, _ => .error (.runtimeError "unknown field")
  | .date _, _, _ => .error (.runtimeError "unknown field")

/-- List/set elements: each encoded with a fresh table (discarded). -/
def encode_elems : PyList → Except PyErr (List ℕ)
  | .nil => .ok []
  | .cons v t => do
    let (b, _) ← encode_object v 0 []
    let r ← encode_elems t
    .ok (b ++ r)

/-- Dict items: key then value, each with a fresh table (discarded). -/
def encode_pairs : PyPairs → Except PyErr (List ℕ)
  | .nil => .ok []
  | .cons k v t => do
    let (kb, _) ← encode_object k 0 []
    let (vb, _) ← encode_object v 0 []
    let r ← encode_pairs t
    .ok (kb ++ vb ++ r)

/-- The field-name loop of the `C` block (each name is a `str`). -/
def encode_field_names : PyFields → Except PyErr (List ℕ)
  | .nil => .ok []
  | .cons nm _ t => do
    let b ← encode_str nm
    let r ← encode_field_names t
    .ok (b ++ r)

/-- The field-value loop of an instance: shares `idx` and the caller's table. -/
def encode_fields : PyFields → ℕ → List (List ℕ) → Except PyErr (List ℕ × List (List ℕ))
  | .nil, _, cls => .ok ([], cls)
  | .cons _ v t, idx, cls => do
    let (b, cls') ← encode_object v idx cls
    let (r, cls2) ← encode_fields t idx cls'
    .ok (b ++ r, cls2)
end

/-! ### JVM descriptor mapping (`_desc_to_cls_names` / `_cls_names_to_desc`) -/

/-- The character class `[_$a-zA-Z]` of `_DESC_PTN`. -/
def isNameStart (c : ℕ) : Bool :=
  c = 0x5f ∨ c = 0x24 ∨ (0x41 ≤ c ∧ c ≤ 0x5a) ∨ (0x61 ≤ c ∧ c ≤ 0x7a)

/-- The character class `[_$a-zA-Z0-9/]` of `_DESC_PTN`. -/
def isNameChar (c : ℕ) : Bool := isNameStart c ∨ (0x30 ≤ c ∧ c ≤ 0x39) ∨ c = 0x2f

/-- The primitive letters `[VZBCDFIJS]` of `_DESC_PTN`. -/
def isPrim (c : ℕ) : Bool := c ∈ [0x56, 0x5a, 0x42, 0x43, 0x44, 0x46, 0x49, 0x4a, 0x53]

/-- Match `L[_$a-zA-Z][_$a-zA-Z0-9/]*;` at the head, returning token and rest. -/
def matchLForm : List ℕ → Option (List ℕ × List ℕ)
  | 0x4c :: c :: rest =>
    if isNameStart c then
      let body := rest.takeWhile isNameChar
      match rest.drop body.length with
      | 0x3b :: r2 => some (0x4c :: c :: (body ++ [0x3b]), r2)
      | _ => Option.none
    else Option.none
  | _ => Option.none

/-- Match one alternative of `_DESC_PTN` at the head: a primitive letter, an
`L…;` class form, or `[`⁺ followed by either. -/
def matchToken (s : List ℕ) : Option (List ℕ × List ℕ) :=
  match s with
  | [] => Option.none
  | c :: rest =>
    if isPrim c then some ([c], rest)
    else if c = 0x4c then matchLForm s
    else if c = 0x5b then
      let brs := s.takeWhile (· = 0x5b)
      let rest2 := s.drop brs.length
      match rest2 with
      | c2 :: r2 =>
        if isPrim c2 then some (brs ++ [c2], r2)
        else
          match matchLForm rest2 with
          | some (tok, r3) => some (brs ++ tok, r3)
          | Option.none => Option.none
      | [] => Option.none
    else Option.none

/-- `_DESC_PTN.findall`: scan left to right, emitting non-overlapping matches
and skipping unmatched characters (fuel = remaining length suffices since each
step consumes at least one character). -/
def findTokensF : ℕ → List ℕ → List (List ℕ)
  | 0, _ => []
  | _ + 1, [] => []
  | f + 1, c :: rest =>
    match matchToken (c :: rest) with
    | some (tok, rest2) => tok :: findTokensF f rest2
    | Option.none => findTokensF f rest

def findTokens (s : List ℕ) : List (List ℕ) := findTokensF s.length s

/-- Replace `/` by `.` (resp. `.` by `/`) in a name. -/
def slashToDot (s : List ℕ) : List ℕ := s.map (fun c => if c = 0x2f then 0x2e else c)

def dotToSlash (s : List ℕ) : List ℕ := s.map (fun c => if c = 0x2e then 0x2f else c)

/-- `hessian2._desc_to_cls_names(desc)`: one class name per descriptor token
(the handler map keyed on the token's first character; an unmatched first
character raises, though `findall` only produces matchable tokens). -/
def desc_to_cls_names (desc : List ℕ) : Except PyErr (List (List ℕ)) :=
  (findTokens desc).mapM fun tok =>
    match tok.head? with
    | some 0x56 => .ok (pystr "None")
    | some 0x5a => .ok (pystr "bool")
    | some 0x42 => .ok (pystr "bytes")
    | some 0x43 => .ok (pystr "chr")
    | some 0x44 => .ok (pystr "float")
    | some 0x46 => .ok (pystr "float")
    | some 0x49 => .ok (pystr "int")
    | some 0x4a => .ok (pystr "int")
    | some 0x53 => .ok (pystr "int")
    | some 0x4c => .ok (slashToDot (tok.drop 1 |>.dropLast))
    | some 0x5b => .ok (slashToDot tok)
    | _ => .error (.runtimeError "unknown type")

/-- `hessian2._cls_names_to_desc(cls_names)`: primitives via the handler map,
otherwise the complex handler (`[`-prefixed names keep the prefix and swap
dots for slashes, others become `L<slashed>;`). -/
def cls_names_to_desc (names : List (List ℕ)) : List ℕ :=
  (names.map fun name =>
    if name = pystr "int" then [0x49]
    else if name = pystr "long" then [0x4a]
    else if name = pystr "NoneType" then [0x56]
    else if name = pystr "bool" then [0x5a]
    else if name = pystr "bytes" then [0x42]
    else if name = pystr "str" then [0x53]
    else if name = pystr "float" then [0x44]
    else if name.head? = some 0x5b then dotToSlash name
    else 0x4c :: (dotToSlash name ++ [0x3b])).flatten

/-- `DubboRequest._get_desc`: descriptor of an argument list from the runtime
type names. -/
def descriptorOf (args : List PyValue) : List ℕ := cls_names_to_desc (args.map typeName)

/-! ### The Hessian-2 decoder (`hessian2.Decoder`)

The decoder state is the body buffer (a `BytesIO` over `List ℕ`) and the
class-definition reference table `_refs`.  Errors carry the state at raise
time, like Python exceptions (the stream position does not roll back), so the
monad is a hand-rolled error-carrying state monad.  The recursive reader
(`_read_object` / `_read_list` / `_read_map` / the instance-argument and
binary-chunk loops) is a single fueled function `decRun` over a small job
type — each Python function is one job constructor — because the recursion
consumes stream bytes rather than structure; the fuel supplied by `decode`
(body length + 16) strictly exceeds the possible recursion depth, so
`fuelExhausted` is unreachable from `decode`. -/

/-- An entry of `Decoder._refs`: `{'type': ..., 'fields': [...]}` plus the
`'args'` key assigned when an instance is read. -/
structure RefEntry where
  type_ : Option (List ℕ)
  fields : List (Option (List ℕ))
  args : Option (List PyValue)

structure DecState where
  buf : List ℕ
  refs : List RefEntry

inductive DecRes (α : Type) where
  | ok (a : α) (s : DecState)
  | err (e : PyErr) (s : DecState)

def DecM (α : Type) : Type := DecState → DecRes α

def DecM.pure (a : α) : DecM α := fun s => .ok a s

def DecM.bind (x : DecM α) (g : α → DecM β) : DecM β := fun s =>
  match x s with
  | .ok a s2 => g a s2
  | .err e s2 => .err e s2

instance : Monad DecM where
  pure := DecM.pure
  bind := DecM.bind

def throwD (e : PyErr) : DecM α := fun s => .err e s

def liftE : Except PyErr α → DecM α
  | .ok a => fun s => .ok a s
  | .error e => throwD e

/-- `except EOFError:` around `x` (state persists as in Python). -/
def onEOF (x : DecM α) (h : DecM α) : DecM α := fun s =>
  match x s with
  | .err .eofError s2 => h s2
  | r => r

/-- `except RuntimeError:` around `x`. -/
def onRuntime (x : DecM α) (h : DecM α) : DecM α := fun s =>
  match x s with
  | .err (.runtimeError _) s2 => h s2
  | r => r

/-- `Decoder._read(length)` on the body `BytesIO`: exactly `length` bytes or
`EOFError` (a short stream is drained and then the empty read raises). -/
def mread (n : ℕ) : DecM (List ℕ) := fun s =>
  if n ≤ s.buf.length then .ok (s.buf.take n) ⟨s.buf.drop n, s.refs⟩
  else .err .eofError ⟨[], s.refs⟩

/-- `ord(self._read(1))`. -/
def mread1 : DecM ℕ := fun s =>
  match s.buf with
  | [] => .err .eofError ⟨[], s.refs⟩
  | b :: t => .ok b ⟨t, s.refs⟩

def getRefs : DecM (List RefEntry) := fun s => .ok s.refs s

def pushRef (r : RefEntry) : DecM Unit := fun s => .ok () ⟨s.buf, s.refs ++ [r]⟩

def setRefArgs (i : ℕ) (args : List PyValue) : DecM Unit := fun s =>
  match s.refs.get? i with
  | some r => .ok () ⟨s.buf, s.refs.set i ⟨r.type_, r.fields, some args⟩⟩
  | Option.none => .ok () s

/-- `Decoder._read_char()`: a 1-, 2- or 3-byte UTF-8 chunk chosen by the lead
byte's high bits (4-byte leads raise). -/
def read_char : DecM (List ℕ) := do
  let c ← mread1
  if c < 0x80 then pure [c]
  else if c &&& 0xe0 = 0xc0 then do
    let r ← mread 1
    pure (c :: r)
  else if c &&& 0xf0 = 0xe0 then do
    let r ← mread 2
    pure (c :: r)
  else throwD (.runtimeError "unknown charactor")

/-- Python `bytes` comparison `a <= b` (lexicographic). -/
def bytesLE : List ℕ → List ℕ → Bool
  | [], _ => true
  | _ :: _, [] => false
  | a :: as2, b :: bs2 => if a < b then true else if b < a then false else bytesLE as2 bs2

/-- The character-accumulation loop of the string branches:
`for _ in range(n): ch = read_char(); if ch >= b'\x00': sbuf += ch`. -/
def read_chars : ℕ → DecM (List ℕ)
  | 0 => pure []
  | n + 1 => do
    let ch ← read_char
    let r ← read_chars n
    pure ((if bytesLE [0] ch then ch else []) ++ r)

/-- `Decoder._read_bytes()`: tag-dispatched read returning raw bytes (or
`None` for tag `N`).  The `tag in (b'I', ...)` test compares the int tag with
a bytes literal and can only match the int member `0x59`. -/
def read_bytes : DecM (Option (List ℕ)) := do
  let tag ← mread1
  if tag = 0x4e then pure Option.none
  else if tag = 0x54 then pure (some (pystr "true"))
  else if tag = 0x46 then pure (some (pystr "false"))
  else if 0x80 ≤ tag ∧ tag ≤ 0xbf then do
    let b ← liftE (int_to_bytes ((tag : ℤ) - 0x90))
    pure (some b)
  else if 0xc0 ≤ tag ∧ tag ≤ 0xcf then do
    let b ← liftE (int_to_bytes (((tag : ℤ) - 0xc8) * 256))
    let r ← mread 1
    pure (some (b ++ r))
  else if 0xd0 ≤ tag ∧ tag ≤ 0xd7 then do
    let b ← liftE (int_to_bytes ((tag : ℤ) - 0xd4))
    let r ← mread 2
    pure (some (b ++ r))
  else if tag = 0x59 then do
    let r ← mread 4
    pure (some r)
  else if 0xd8 ≤ tag ∧ tag ≤ 0xef then do
    let b ← liftE (int_to_bytes ((tag : ℤ) - 0xe0))
    pure (some b)
  else if 0xf0 ≤ tag ∧ tag ≤ 0xff then do
    let b ← liftE (int_to_bytes ((tag : ℤ) - 0xf8))
    let r ← mread 1
    pure (some (b ++ r))
  else if 0x38 ≤ tag ∧ tag ≤ 0x3f then do
    let b ← liftE (int_to_bytes ((tag : ℤ) - 0x3c))
    let r ← mread 2
    pure (some (b ++ r))
  else if tag = 0x4c then do
    let r ← mread 8
    pure (some r)
  else if tag = 0x5b then pure (some (pystr "0.0"))
  else if tag = 0x5c then pure (some (pystr "1.0"))
  else if tag = 0x5d then do
    let r ← mread 1
    pure (some r)
  else if tag = 0x5e then do
    let r ← mread 2
    pure (some r)
  else if tag = 0x5f then do
    let bs ← mread 4
    pure (some (double_to_bytes (fmul lit001 (intToFloat (bytes_to_int bs)))))
  else if tag = 0x44 then do
    let r ← mread 8
    pure (some r)
  else if tag = 0x53 ∨ tag = 0x52 then do
    let lb ← mread 2
    let s ← read_chars (bytes_to_int lb)
    pure (some s)
  else if tag ≤ 0x1f then do
    let s ← read_chars tag
    pure (some s)
  else if 0x30 ≤ tag ∧ tag ≤ 0x33 then do
    let b ← mread1
    let s ← read_chars ((tag - 0x30) * 256 + b)
    pure (some s)
  else throwD (.runtimeError "read bytes error")

/-- `Decoder._read_int()`: tag-dispatched int with null/bool/double coercions
(here the `I` comparison uses `ord`, so both `0x49` and `0x59` match). -/
def read_int : DecM ℤ := do
  let tag ← mread1
  if tag = 0x4e then pure 0
  else if tag = 0x46 then pure 0
  else if tag = 0x54 then pure 1
  else if 0x80 ≤ tag ∧ tag ≤ 0xbf then pure ((tag : ℤ) - 0x90)
  else if 0xc0 ≤ tag ∧ tag ≤ 0xcf then do
    let b ← mread1
    pure (((tag : ℤ) - 0xc8) * 256 + b)
  else if 0xd0 ≤ tag ∧ tag ≤ 0xd7 then do
    let bs ← mread 2
    pure (((tag : ℤ) - 0xd4) * 65536 + bytes_to_int bs)
  else if tag = 0x49 ∨ tag = 0x59 then do
    let bs ← mread 4
    pure (bytes_to_int bs)
  else if 0xd8 ≤ tag ∧ tag ≤ 0xef then pure ((tag : ℤ) - 0xe0)
  else if 0xf0 ≤ tag ∧ tag ≤ 0xff then do
    let b ← mread1
    pure (((tag : ℤ) - 0xf8) * 256 + b)
  else if 0x38 ≤ tag ∧ tag ≤ 0x3f then do
    let bs ← mread 2
    pure (((tag : ℤ) - 0x3c) * 65536 + bytes_to_int bs)
  else if tag = 0x4c then do
    let bs ← mread 8
    pure (bytes_to_long bs)
  else if tag = 0x5b then pure 0
  else if tag = 0x5c then pure 1
  else if tag = 0x5d then do
    let bs ← mread 1
    pure (bytes_to_int_signed bs)
  else if tag = 0x5e then do
    let bs ← mread 2
    pure (bytes_to_int_signed bs)
  else if tag = 0x5f then do
    let bs ← mread 4
    pure (pytrunc (fmul lit001 (intToFloat (bytes_to_int_signed bs))))
  else if tag = 0x44 then do
    let bs ← mread 8
    pure (bytes_to_long bs)
  else throwD (.runtimeError "read int error")

/-- The field-name loop of `Decoder._read_object_def`. -/
def read_bytes_n : ℕ → DecM (List (Option (List ℕ)))
  | 0 => pure []
  | n + 1 => do
    let b ← read_bytes
    let r ← read_bytes_n n
    pure (b :: r)

/-- `Decoder._read_object_def()`: type, field count, field names; appended to
`_refs`. -/
def read_object_def : DecM Unit := do
  let type_ ← read_bytes
  let len ← read_int
  let fields ← read_bytes_n len.toNat
  pushRef ⟨type_, fields, Option.none⟩

/-- `.decode()` on a `_read_bytes` result (`AttributeError` on `None`). -/
def decodeOpt : Option (List ℕ) → Except PyErr (List ℕ)
  | some bs => utf8Decode bs
  | Option.none => .error .attributeError

/-- `hessian2._cls_factory(ref)` (with the freshly read `args`):
`new_object(type.decode(), **dict(zip(map(decode, fields), args)))`. -/
def cls_factory (r : RefEntry) (args : List PyValue) : Except PyErr PyValue := do
  let tn ← decodeOpt r.type_
  let names ← r.fields.mapM decodeOpt
  .ok (.obj tn (buildFields (names.zip args)))
where
  buildFields : List (List ℕ × PyValue) → PyFields
    | [] => .nil
    | (n, v) :: t => .cons n v (buildFields t)

def optBytesVal : Option (List ℕ) → PyValue
  | some bs => .bytes bs
  | Option.none => .none

/-- The raw `_refs` entry dict, as returned verbatim by the `0x51` value
back-reference branch. -/
def refEntryValue (r : RefEntry) : PyValue :=
  let base : PyPairs :=
    .cons (.str (pystr "type")) (optBytesVal r.type_)
      (.cons (.str (pystr "fields")) (.pylist false (plistOf (r.fields.map optBytesVal))) .nil)
  match r.args with
  | some args =>
    .dict (appendPair base (.str (pystr "args")) (.pylist false (plistOf args)))
  | Option.none => .dict base
where
  appendPair : PyPairs → PyValue → PyValue → PyPairs
    | .nil, k, v => .cons k v .nil
    | .cons k2 v2 t, k, v => .cons k2 v2 (appendPair t k v)

/-- Python list indexing with negative indices (`IndexError` out of range). -/
def pyListIndex (l : List RefEntry) (i : ℤ) : Except PyErr RefEntry :=
  let j : ℤ := if i < 0 then i + l.length else i
  if h : 0 ≤ j ∧ j.toNat < l.length then .ok (l.get ⟨j.toNat, h.2⟩)
  else .error .indexError

/-- The `code` variable of `_read_map`: `None` on the `H` path, the int tag
`0x4d` on the `M` path (`self._read_map(tag)` passes the **int**), and a bytes
object once re-read from the stream. -/
inductive PyCode where
  | none
  | int (n : ℕ)
  | bytes (bs : List ℕ)
  deriving DecidableEq

/-- `code not in (b'z', b'Z')` negated: only the 1-byte strings `z`/`Z` end the
pair loop (an int or `None` code never equals a bytes literal). -/
def codeIsEnd : PyCode → Bool
  | .bytes bs => bs = [0x7a] ∨ bs = [0x5a]
  | _ => false

/-- `code and ord(code)` of `_read_keyval`: falsy codes (`None`, `0`, `b''`)
give `None`; `ord` of a 1-byte string gives its byte; `ord` of anything else
raises `TypeError` (in particular the int `0x4d` passed for `M` maps). -/
def keyTag : PyCode → Except PyErr (Option ℕ)
  | .none => .ok Option.none
  | .int 0 => .ok Option.none
  | .int _ => .error .typeError
  | .bytes [] => .ok Option.none
  | .bytes [c] => .ok (some c)
  | .bytes _ => .error .typeError

/-- Jobs of the fueled recursive reader: `_read_object` (with an optional
pre-read tag), the `_read_list` element loop, `_read_map` entry and pair loop,
the instance-argument loop of the `0x60` branch, and the `_read_byte` binary
chunk loop. -/
inductive DecJob where
  | obj (tag : Option ℕ)
  | list (n : ℕ)
  | mapEnter (code : PyCode)
  | mapLoop (code : PyCode) (acc : PyPairs)
  | objArgs (n : ℕ)
  | binChunk (len : ℤ)

inductive DecOut where
  | val (v : PyValue)
  | vals (vs : List PyValue)
  | pairs (ps : PyPairs)
  | chunk (len : ℤ) (b : ℕ)

def decRun : ℕ → DecJob → DecM DecOut
  | 0, _ => throwD .fuelExhausted
  | f + 1, .obj tagOpt => do
    let tag ← match tagOpt with
      | some t => pure t
      | Option.none => mread1
    if tag = 0x4e then pure (.val .none)
    else if tag = 0x54 then pure (.val (.bool true))
    else if tag = 0x46 then pure (.val (.bool false))
    else if 0x80 ≤ tag ∧ tag ≤ 0xbf then pure (.val (.int ((tag : ℤ) - 0x90)))
    else if 0xc0 ≤ tag ∧ tag ≤ 0xcf then do
      let b ← mread1
      pure (.val (.int (((tag : ℤ) - 0xc8) * 256 + b)))
    else if 0xd0 ≤ tag ∧ tag ≤ 0xd7 then do
      let bs ← mread 2
      pure (.val (.int (((tag : ℤ) - 0xd4) * 65536 + bytes_to_int bs)))
    -- `tag in (b'I', 0x59)`: the bytes literal never equals the int tag, so
    -- only `0x59` is recognised (`I` = 0x49 falls through to "unknown code")
    else if tag = 0x59 then do
      let bs ← mread 4
      pure (.val (.int (bytes_to_int bs)))
    else if 0xd8 ≤ tag ∧ tag ≤ 0xef then pure (.val (.int ((tag : ℤ) - 0xe0)))
    else if 0xf0 ≤ tag ∧ tag ≤ 0xff then do
      let b ← mread1
      pure (.val (.int (((tag : ℤ) - 0xf8) * 256 + b)))
    else if 0x38 ≤ tag ∧ tag ≤ 0x3f then do
      let bs ← mread 2
      pure (.val (.int (((tag : ℤ) - 0x3c) * 65536 + bytes_to_int bs)))
    else if tag = 0x4c then do
      let bs ← mread 8
      pure (.val (.int (bytes_to_long bs)))
    else if tag = 0x5b then pure (.val (.float false (mkRat 0 1)))
    else if tag = 0x5c then pure (.val (.float false (mkRat 1 1)))
    else if tag = 0x5d then do
      let bs ← mread 1
      pure (.val (.int (bytes_to_int_signed bs)))
    else if tag = 0x5e then do
      let bs ← mread 2
      pure (.val (.int (bytes_to_int_signed bs)))
    else if tag = 0x5f then do
      let bs ← mread 4
      pure (.val (.float false (fmul lit001 (intToFloat (bytes_to_int_signed bs)))))
    else if tag = 0x44 then do
      let bs ← mread 8
      let q ← liftE (bytes_to_double bs)
      pure (.val (.float false q))
    else if tag = 0x4a then do
      let bs ← mread 8
      pure (.val (.date (timestamp_to_datetime (bytes_to_long bs))))
    else if tag = 0x4b then do
      let bs ← mread 4
      pure (.val (.date (timestamp_to_datetime (bytes_to_int bs * 60))))
    else if tag = 0x53 ∨ tag = 0x52 then do
      let lb ← mread 2
      let sb ← read_chars (bytes_to_int lb)
      let cps ← liftE (utf8Decode sb)
      pure (.val (.str cps))
    else if tag ≤ 0x1f then do
      let sb ← read_chars tag
      let cps ← liftE (utf8Decode sb)
      pure (.val (.str cps))
    else if 0x30 ≤ tag ∧ tag ≤ 0x33 then do
      let b ← mread1
      let sb ← read_chars ((tag - 0x30) * 256 + b)
      let cps ← liftE (utf8Decode sb)
      pure (.val (.str cps))
    else if tag = 0x41 ∨ tag = 0x42 then do
      -- binary chunks: after `_read_byte` the loop condition `data >= 0`
      -- compares bytes with an int and raises TypeError
      let lb ← mread 2
      let _ ← decRun f (.binChunk (bytes_to_int lb))
      throwD .typeError
    else if 0x20 ≤ tag ∧ tag ≤ 0x2f then do
      let bs ← mread (tag - 0x20)
      pure (.val (.bytes bs))
    else if 0x34 ≤ tag ∧ tag ≤ 0x37 then do
      let b ← mread1
      let bs ← mread ((tag - 0x34) * 256 + b)
      pure (.val (.bytes bs))
    else if tag = 0x55 then throwD (.runtimeError "unimplemented")
    else if tag = 0x57 then throwD (.runtimeError "unimplemented")
    else if tag = 0x56 then do
      let _ ← read_bytes
      let len ← read_int
      match ← decRun f (.list len.toNat) with
      | .vals vs => pure (.val (.pylist true (plistOf vs)))
      | _ => throwD (.runtimeError "internal")
    else if tag = 0x58 then do
      let len ← read_int
      match ← decRun f (.list len.toNat) with
      | .vals vs => pure (.val (.pylist false (plistOf vs)))
      | _ => throwD (.runtimeError "internal")
    else if 0x70 ≤ tag ∧ tag ≤ 0x77 then do
      let _ ← read_bytes
      match ← decRun f (.list (tag - 0x70)) with
      | .vals vs => pure (.val (.pylist true (plistOf vs)))
      | _ => throwD (.runtimeError "internal")
    else if 0x78 ≤ tag ∧ tag ≤ 0x7f then do
      match ← decRun f (.list (tag - 0x78)) with
      | .vals vs => pure (.val (.pylist false (plistOf vs)))
      | _ => throwD (.runtimeError "internal")
    else if tag = 0x48 then do
      match ← decRun f (.mapEnter .none) with
      | .pairs ps => pure (.val (.dict ps))
      | _ => throwD (.runtimeError "internal")
    else if tag = 0x4d then do
      -- `self._read_map(tag)` passes the *int* tag
      match ← decRun f (.mapEnter (.int 0x4d)) with
      | .pairs ps => pure (.val (.dict ps))
      | _ => throwD (.runtimeError "internal")
    else if tag = 0x43 then do
      read_object_def
      match ← decRun f (.obj Option.none) with
      | .val v => pure (.val v)
      | _ => throwD (.runtimeError "internal")
    else if 0x60 ≤ tag ∧ tag ≤ 0x6f then do
      let idx := tag - 0x60
      let refs ← getRefs
      match refs.get? idx with
      | Option.none => throwD (.runtimeError "class definition not found")
      | some r =>
        match ← decRun f (.objArgs r.fields.length) with
        | .vals args => do
          setRefArgs idx args
          let v ← liftE (cls_factory r args)
          pure (.val v)
        | _ => throwD (.runtimeError "internal")
    else if tag = 0x30 then throwD (.runtimeError "unimplemented")
    else if tag = 0x51 then do
      let idx ← read_int
      let refs ← getRefs
      let r ← liftE (pyListIndex refs idx)
      pure (.val (refEntryValue r))
    else if tag = 0x5a then throwD .eofError
    else throwD (.runtimeError "unknown code")
  | f + 1, .list n =>
    match n with
    | 0 => pure (.vals [])
    | k + 1 => do
      match ← decRun f (.obj Option.none) with
      | .val v =>
        match ← decRun f (.list k) with
        | .vals vs => pure (.vals (v :: vs))
        | _ => throwD (.runtimeError "internal")
      | _ => throwD (.runtimeError "internal")
  | f + 1, .mapEnter code => do
    if code = .bytes [0x74] then do
      let lb ← mread 2
      let tlen := bytes_to_int lb
      let _ ← if 0 < tlen then mread tlen else pure []
      let c ← mread 1
      decRun f (.mapLoop (.bytes c) .nil)
    else do
      let code2 ← if code = .bytes [0x4d] then do
          -- read and discard the type (`except RuntimeError` sets a dead
          -- `code` value that the following read immediately overwrites)
          let _ ← onRuntime
            (do
              let _ ← decRun f (.obj Option.none)
              pure ())
            (pure ())
          let c ← mread 1
          pure (PyCode.bytes c)
        else pure code
      decRun f (.mapLoop code2 .nil)
  | f + 1, .mapLoop code acc => do
    if codeIsEnd code then pure (.pairs acc)
    else do
      let kv ← onEOF
        (do
          let kt ← liftE (keyTag code)
          match ← decRun f (.obj kt) with
          | .val k =>
            match ← decRun f (.obj Option.none) with
            | .val v => pure (some (k, v))
            | _ => throwD (.runtimeError "internal")
          | _ => throwD (.runtimeError "internal"))
        (pure Option.none)
      match kv with
      | Option.none => pure (.pairs acc)
      | some (k, v) =>
        if pyEq k (.dict .nil) then pure (.pairs acc)
        else do
          let acc2 ← liftE (dictInsert acc k v)
          let c ← mread 1
          decRun f (.mapLoop (.bytes c) acc2)
  | f + 1, .objArgs n =>
    match n with
    | 0 => pure (.vals [])
    | k + 1 => do
      match ← decRun f (.obj Option.none) with
      | .val v =>
        match ← decRun f (.objArgs k) with
        | .vals vs => pure (.vals (v :: vs))
        | _ => throwD (.runtimeError "internal")
      | _ => throwD (.runtimeError "internal")
  | f + 1, .binChunk len =>
    if len ≤ 0 then do
      let c ← mread1
      if c = 0x41 ∨ c = 0x42 then do
        let lb ← mread 2
        decRun f (.binChunk (bytes_to_int lb))
      else if 0x20 ≤ c ∧ c ≤ 0x2f then decRun f (.binChunk ((c : ℤ) - 0xa0))
      else if 0x34 ≤ c ∧ c ≤ 0x37 then do
        let b ← mread1
        decRun f (.binChunk (((c : ℤ) - 0x34) * 256 + b))
      else decRun f (.binChunk len)
    else do
      let bs ← mread 1
      pure (.chunk (len - 1) (bs.headD 0))

/-- `Decoder._read_object(tag=None)` via the fueled reader. -/
def read_object (fuel : ℕ) (tag : Option ℕ := Option.none) : DecM PyValue := do
  match ← decRun fuel (.obj tag) with
  | .val v => pure v
  | _ => throwD (.runtimeError "internal")

/-- `Decoder._read_map(code)` via the fueled reader. -/
def read_map (fuel : ℕ) (code : PyCode) : DecM PyPairs := do
  match ← decRun fuel (.mapEnter code) with
  | .pairs ps => pure ps
  | _ => throwD (.runtimeError "internal")

/-- `Decoder(BytesIO(bs))._read_object()` on a fresh decoder: the value and the
unconsumed rest of the stream (fuel from the buffer size, ample for any
terminating read). -/
def runReadObject (bs : List ℕ) : Except PyErr (PyValue × List ℕ) :=
  match read_object (bs.length + 16) Option.none ⟨bs, []⟩ with
  | .ok v s => .ok (v, s.buf)
  | .err e _ => .error e

/-! ### Typed-data converter (`java_class.java_typed_data_to_python`) -/

/-- Parse an ASCII decimal integer literal (`int(str)`); `ValueError` otherwise.
Only the plain `[-]digits` form is modelled. -/
def parseIntCps (s : List ℕ) : Except PyErr ℤ :=
  match s with
  | 0x2d :: rest => (fun n => -(n : ℤ)) <$> digits rest
  | _ => (fun n => (n : ℤ)) <$> digits s
where
  digits : List ℕ → Except PyErr ℕ
    | [] => .error .valueError
    | l => go l 0
  go : List ℕ → ℕ → Except PyErr ℕ
    | [], acc => .ok acc
    | c :: t, acc =>
      if 0x30 ≤ c ∧ c ≤ 0x39 then go t (acc * 10 + (c - 0x30)) else .error .valueError

/-- Python `int(x)` over the embedded values (string parsing restricted to
plain decimal literals; other receivers raise). -/
def pyIntOf : PyValue → Except PyErr ℤ
  | .bool b => .ok (if b then 1 else 0)
  | .int n => .ok n
  | .long n => .ok n
  | .float _ q => .ok (pytrunc q)
  | .str s => parseIntCps s
  | _ => .error .typeError

/-- Python `float(x)` (string parsing not modelled — no claim needs it). -/
def pyFloatOf : PyValue → Except PyErr ℚ
  | .bool b => .ok (intToFloat (if b then 1 else 0))
  | .int n => .ok (intToFloat n)
  | .long n => .ok (intToFloat n)
  | .float _ q => .ok q
  | _ => .error .typeError

/-- `java_class.java_typed_data_to_python(type_, data)`: the `_type_handlers`
lookup (keys are strings; a miss raises `RuntimeError('unsupported type')`)
followed by the Python constructor call. -/
def java_typed_data_to_python (t data : PyValue) : Except PyErr PyValue :=
  match t with
  | .str s =>
    if s = pystr "boolean" ∨ s = pystr "java.lang.Boolean" then .ok (.bool (pyTruthy data))
    else if s = pystr "short" ∨ s = pystr "int" ∨ s = pystr "java.lang.Integer"
        ∨ s = pystr "java.lang.Short" then (PyValue.int) <$> pyIntOf data
    else if s = pystr "float" ∨ s = pystr "double" ∨ s = pystr "java.lang.Float"
        ∨ s = pystr "java.lang.Double" then (PyValue.float false) <$> pyFloatOf data
    else if s = pystr "java.lang.String" then
      match data with
      | .str cps => .ok (.str cps)
      | _ => .error .typeError
    else if s = pystr "java.lang.Long" then (PyValue.long) <$> pyIntOf data
    else .error (.runtimeError "unsupported type")
  | _ => .error (.runtimeError "unsupported type")

/-! ### Frame decoding (`Decoder.decode`) -/

/-- The decoded message kinds (`DubboRequest`, `DubboResponse`,
`DubboHeartBeatRequest`, `DubboHeartBeatResponse`, or the raw telnet bytes
that `decode` returns for a non-magic stream). -/
inductive Message where
  | telnet (bs : List ℕ)
  | heartbeatRequest (id : ℕ) (data : PyValue) (twoway : Bool)
  | heartbeatResponse (id : ℕ) (data : PyValue)
  | request (id : ℕ) (twoway : Bool) (dubboVersion serviceName serviceVersion : Option (List ℕ))
      (methodName : Option (List ℕ)) (args : List PyValue) (attachment : PyValue)
  | response (id : ℕ) (status : ℕ) (data : PyValue) (error : PyValue)

def dubboMagic : List ℕ := [0xda, 0xbb]

/-- The prompt `b'\r\ndubbo>'`. -/
def dubboEnd : List ℕ := [0x0d, 0x0a, 0x64, 0x75, 0x62, 0x62, 0x6f, 0x3e]

/-- `received.endswith(suffix)`. -/
def endsWith (l suffix : List ℕ) : Bool :=
  if l.length < suffix.length then false else suffix == l.drop (l.length - suffix.length)

/-- `Decoder._read_until_prompt()`: accumulate single bytes until the
accumulated string ends with the prompt (the two header bytes already read by
`decode` are *not* part of the checked string).  Returns the accumulated bytes
and the rest of the stream. -/
def read_until_prompt (acc s : List ℕ) : Except PyErr (List ℕ × List ℕ) :=
  if endsWith acc dubboEnd then .ok (acc, s)
  else
    match s with
    | [] => .error .eofError
    | c :: t => read_until_prompt (acc ++ [c]) t

/-- `Decoder._read(n)` on the outer stream (`BytesIO` semantics). -/
def sread (n : ℕ) (s : List ℕ) : Except PyErr (List ℕ × List ℕ) :=
  if n ≤ s.length then .ok (s.take n, s.drop n) else .error .eofError

/-- The count-driven argument loop of `_decode_request_body`. -/
def read_n_objects (fuel : ℕ) : ℕ → DecM (List PyValue)
  | 0 => pure []
  | n + 1 => do
    let v ← read_object fuel
    let r ← read_n_objects fuel n
    pure (v :: r)

/-- `Decoder._decode_request_body(id)` (body phase).  The generic-call rewrite
applies when `attachment.get('generic') in ('true', True)`; `zip(*args[1:])`
is modelled for the empty and the two-list shapes that the source expects. -/
def decode_request_body (fuel : ℕ) (id : ℕ) (twoway : Bool) : DecM Message := do
  let dv ← read_bytes
  let sn ← read_bytes
  let sv ← read_bytes
  let mn ← read_bytes
  let desc ← read_bytes
  let descStr ← liftE (decodeOpt desc)
  let argTypes ← liftE (desc_to_cls_names descStr)
  let args ← read_n_objects fuel argTypes.length
  let attachment ← read_object fuel
  let gv ← match attachment with
    | .dict ps => pure (dictGet ps (.str (pystr "generic")))
    | _ => throwD .attributeError
  let generic := match gv with
    | some g => pyEq g (.str (pystr "true")) || pyEq g (.bool true)
    | Option.none => false
  if generic then do
    let mn2 ← match args.head? with
      | some (.str s) => pure (some (utf8Encode s))
      | some _ => throwD .attributeError
      | Option.none => throwD .indexError
    let args2 ← match args.drop 1 with
      | [] => pure []
      | [.pylist _ ts, .pylist _ vs] =>
        liftE (((plistToList ts).zip (plistToList vs)).mapM
          fun p => java_typed_data_to_python p.1 p.2)
      | _ => throwD .typeError
    pure (.request id twoway dv sn sv mn2 args2 attachment)
  else
    pure (.request id twoway dv sn sv mn args attachment)

/-- `Decoder._decode_response_body(id, status)` (body phase): inner status int
for OK responses (`1` and the legacy `0` decode a value, anything else leaves
`data = None`); non-OK decodes the error object. -/
def decode_response_body (fuel : ℕ) (id : ℕ) (status : ℕ) : DecM Message := do
  if status = 20 then do
    let sc ← read_int
    if sc = 1 then do
      let data ← read_object fuel
      pure (.response id status data .none)
    else if sc = 0 then do
      let data ← read_object fuel
      pure (.response id status data .none)
    else
      pure (.response id status .none .none)
  else do
    let err ← read_object fuel
    pure (.response id status .none err)

/-- `Decoder.decode()` on a byte stream.  A non-magic first pair of bytes
switches to telnet mode.  Otherwise: parse the 16-byte header (the
serialization id `flag & 0x1f` is extracted for a debug log but never
verified), read exactly `body length` bytes into a fresh bounded buffer with
an empty reference table, and dispatch on the request/event flags; leftover
body bytes only produce a warning. -/
def decode (stream : List ℕ) : Except PyErr Message := do
  let (h2, rest) ← sread 2 stream
  if h2 ≠ dubboMagic then do
    let (line, _) ← read_until_prompt [] rest
    .ok (.telnet (h2 ++ line))
  else do
    let (h14, _rest2) ← sread 14 rest
    let header := h2 ++ h14
    let flag := header.getD 2 0
    let twoway := flag &&& 0x40 ≠ 0
    let status := header.getD 3 0
    let invokeId := bytes_to_long ((header.drop 4).take 8)
    let bodyLen := bytes_to_int ((header.drop 12).take 4)
    let (body, _left) ← sread bodyLen _rest2
    let fuel := body.length + 16
    let st : DecState := ⟨body, []⟩
    let run : DecM Message :=
      if flag &&& 0x80 ≠ 0 then
        if flag &&& 0x20 ≠ 0 then do
          let data ← read_object fuel
          pure (.heartbeatRequest invokeId data twoway)
        else decode_request_body fuel invokeId twoway
      else
        if flag &&& 0x20 ≠ 0 then do
          let data ← read_object fuel
          pure (.heartbeatResponse invokeId data)
        else decode_response_body fuel invokeId status
    match run st with
    | .ok m _ => .ok m
    | .err e _ => .error e

/-! ### Server response mapping (`server._DubboRequestHandler.handle`) -/

/-- `DubboResponse(id, status, data, error)` as plain data (`OK = 20`,
`UnknownError = 90`). -/
structure DubboResponseV where
  id : ℕ
  status : ℕ
  data : PyValue
  error : PyValue
  deriving DecidableEq

/-- Modelled from the spec: `DubboError(status, message)` — the class lives in
`dubbo/errors.py`, which is not under `src/`; per §7 it carries a status code
and a message.  A handler invocation either returns a value, raises a
`DubboError`, raises `EOFError`, or raises some other exception whose
`str(err)` is the given text. -/
inductive HandlerOutcome where
  | ret (v : PyValue)
  | dubboError (status : ℕ) (message : PyValue)
  | eofError
  | exn (msg : List ℕ)

/-- The `try/except` of `handle` around `handler(*msg.args)`:
normal return → `DubboResponse(id, OK, result, None)`;
`DubboError` → `DubboResponse(id, err.status, None, err.message)`;
`EOFError` → re-raised;
any other exception → `DubboResponse(id, UnknownError, None, str(err))`. -/
def invoke_result (id : ℕ) : HandlerOutcome → Except PyErr DubboResponseV
  | .ret v => .ok ⟨id, 20, v, .none⟩
  | .dubboError s m => .ok ⟨id, s, .none, m⟩
  | .eofError => .error .eofError
  | .exn msg => .ok ⟨id, 90, .none, .str msg⟩

/-- `handler_map.get(service, {}).get(method)` over an association list keyed
by `(service, method)` byte strings. -/
def lookup_handler (services : List ((List ℕ × List ℕ) × (List PyValue → HandlerOutcome)))
    (svc meth : List ℕ) : Option (List PyValue → HandlerOutcome) :=
  match services with
  | [] => Option.none
  | (k, h) :: t => if k.1 == svc && k.2 == meth then some h else lookup_handler t svc meth

/-- The non-heartbeat branch of the `handle` loop for one decoded request:
no registered handler → log and drop (no reply); otherwise reply with
`invoke_result` of the handler call. -/
def handle_request (services : List ((List ℕ × List ℕ) × (List PyValue → HandlerOutcome)))
    (svc meth : List ℕ) (id : ℕ) (args : List PyValue) :
    Except PyErr (Option DubboResponseV) :=
  match lookup_handler services svc meth with
  | Option.none => .ok Option.none
  | some h => (fun r => some r) <$> invoke_result id (h args)

/-- `encode_object(v)` at top level (fresh table), bytes only. -/
def encTop (v : PyValue) : Except PyErr (List ℕ) := (encode_object v 0 []).map Prod.fst

/-- One encode/decode roundtrip fact: `v` encodes to exactly `bs`, `bs` decodes
back (consuming everything) to `v2`, and `v2 == v` in Python. -/
def rtB (v : PyValue) (bs : List ℕ) (v2 : PyValue) : Bool :=
  (encTop v == .ok bs) && (runReadObject bs == .ok (v2, [])) && pyEq v2 v

/-! Application lemmas for the decoder monad (`do` blocks applied to a state). -/

theorem bindD (x : DecM α) (g : α → DecM β) (s : DecState) :
    (x >>= g) s = match x s with
      | .ok a s2 => g a s2
      | .err e s2 => .err e s2 := rfl

theorem pureD (a : α) (s : DecState) : (pure a : DecM α) s = .ok a s := rfl

theorem bindD_ok (x : DecM α) (g : α → DecM β) (s s2 : DecState) (a : α)
    (h : x s = .ok a s2) : (x >>= g) s = g a s2 := by
  rw [bindD, h]

/-! Lemmas for the long strings (`'a' * 100` and `'a' * 10000` are too deep for
direct kernel evaluation). -/

theorem utf8Cp_ascii (c : ℕ) (hc : c < 0x80) : utf8Cp c = [c] := by
  simp [utf8Cp, hc]

theorem utf8Encode_replicate (c : ℕ) (hc : c < 0x80) (n : ℕ) :
    utf8Encode (List.replicate n c) = List.replicate n c := by
  induction n with
  | zero => rfl
  | succ k ih =>
    rw [List.replicate_succ]
    show utf8Cp c ++ utf8Encode (List.replicate k c) = _
    rw [utf8Cp_ascii c hc, ih]
    rfl

theorem utf8Decode_97_cons (rest : List ℕ) :
    utf8Decode (97 :: rest) = utf8Decode rest >>= fun r => .ok (97 :: r) := rfl

theorem utf8Decode_replicate (n : ℕ) :
    utf8Decode (List.replicate n 97) = .ok (List.replicate n 97) := by
  induction n with
  | zero => rfl
  | succ k ih =>
    rw [List.replicate_succ, utf8Decode_97_cons, ih]
    rfl

theorem read_chars_replicate (c : ℕ) (hc : c < 0x80) (n : ℕ) (rest : List ℕ)
    (refs : List RefEntry) :
    read_chars n ⟨List.replicate n c ++ rest, refs⟩ = .ok (List.replicate n c) ⟨rest, refs⟩ := by
  induction n generalizing rest with
  | zero => rfl
  | succ k ih =>
    have hle : bytesLE [0] [c] = true := by
      rcases Nat.eq_zero_or_pos c with h0 | h0 <;> simp [bytesLE, h0]
    rw [List.replicate_succ, List.cons_append]
    simp only [read_chars, bindD, read_char, mread1, mread, pureD, hc, if_true, ih rest, hle]
    rfl

theorem encode_str_replicate_10000 :
    encode_str (List.replicate 10000 97) =
      .ok ([0x53, 0x27, 0x10] ++ List.replicate 10000 97) := by
  have h1 : int_to_bytes ((10000 : ℕ) : ℤ) = .ok [0x27, 0x10] := by decide
  simp only [encode_str, List.length_replicate]
  rw [if_neg (by decide : ¬ (10000 ≤ 0x1f)), if_neg (by decide : ¬ (10000 ≤ 0x3ff)), h1]
  show Except.ok (0x53 :: ([0x27, 0x10] ++ utf8Encode (List.replicate 10000 97))) = _
  rw [utf8Encode_replicate 97 (by decide)]
  rfl

theorem encode_str_replicate_100 :
    encode_str (List.replicate 100 97) = .ok ([0x30, 0x64] ++ List.replicate 100 97) := by
  have h1 : int_to_bytes ((12288 : ℤ) + ((100 : ℕ) : ℤ)) = .ok [0x30, 0x64] := by decide
  simp only [encode_str, List.length_replicate]
  rw [if_neg (by decide : ¬ (100 ≤ 0x1f)), if_pos (by decide : (100 : ℕ) ≤ 0x3ff), h1]
  show Except.ok ([0x30, 0x64] ++ utf8Encode (List.replicate 100 97)) = _
  rw [utf8Encode_replicate 97 (by decide)]

/-- The `S` string branch of `decRun`, stated verbatim on the post-tag state
(definitionally equal: the tag `0x53` selects the branch). -/
theorem decRun_S_cons (f : ℕ) (rest : List ℕ) (refs : List RefEntry) :
    decRun (f + 1) (.obj Option.none) ⟨0x53 :: rest, refs⟩ =
      (do
        let lb ← mread 2
        let sb ← read_chars (bytes_to_int lb)
        let cps ← liftE (utf8Decode sb)
        pure (DecOut.val (PyValue.str cps))) ⟨rest, refs⟩ := rfl

theorem read_object_replicate_10000 :
    read_object 10019 Option.none ⟨0x53 :: 0x27 :: 0x10 :: List.replicate 10000 97, []⟩ =
      .ok (.str (List.replicate 10000 97)) ⟨[], []⟩ := by
  have h1 : mread 2 ⟨0x27 :: 0x10 :: List.replicate 10000 97, []⟩ =
      .ok [0x27, 0x10] ⟨List.replicate 10000 97, []⟩ := by
    simp only [mread, List.length_cons]
    rw [if_pos (by omega : 2 ≤ (List.replicate 10000 97).length + 1 + 1)]
    rfl
  have h2 : read_chars (bytes_to_int [0x27, 0x10]) ⟨List.replicate 10000 97, []⟩ =
      .ok (List.replicate 10000 97) ⟨[], []⟩ := by
    rw [show bytes_to_int [0x27, 0x10] = 10000 from by decide]
    have hrc := read_chars_replicate 97 (by decide) 10000 [] []
    rw [List.append_nil] at hrc
    exact hrc
  have h3 : liftE (utf8Decode (List.replicate 10000 97)) ⟨[], []⟩ =
      .ok (List.replicate 10000 97) (⟨[], []⟩ : DecState) := by
    rw [utf8Decode_replicate 10000]
    rfl
  have h4 :
      (liftE (utf8Decode (List.replicate 10000 97)) >>= fun cps =>
          pure (DecOut.val (PyValue.str cps)) : DecM DecOut) ⟨[], []⟩ =
        .ok (.val (.str (List.replicate 10000 97))) ⟨[], []⟩ :=
    (bindD_ok _ _ _ _ _ h3).trans (pureD _ _)
  have h5 :
      (read_chars (bytes_to_int [0x27, 0x10]) >>= fun sb =>
          liftE (utf8Decode sb) >>= fun cps =>
          pure (DecOut.val (PyValue.str cps)) : DecM DecOut)
          ⟨List.replicate 10000 97, []⟩ =
        .ok (.val (.str (List.replicate 10000 97))) ⟨[], []⟩ :=
    (bindD_ok _ _ _ _ _ h2).trans h4
  have h6 :
      (mread 2 >>= fun lb =>
          read_chars (bytes_to_int lb) >>= fun sb =>
          liftE (utf8Decode sb) >>= fun cps =>
          pure (DecOut.val (PyValue.str cps)) : DecM DecOut)
          ⟨0x27 :: 0x10 :: List.replicate 10000 97, []⟩ =
        .ok (.val (.str (List.replicate 10000 97))) ⟨[], []⟩ :=
    (bindD_ok _ _ _ _ _ h1).trans h5
  have hdec : decRun 10019 (.obj Option.none)
      ⟨0x53 :: 0x27 :: 0x10 :: List.replicate 10000 97, []⟩ =
      .ok (.val (.str (List.replicate 10000 97))) ⟨[], []⟩ := by
    rw [show (10019 : ℕ) = 10018 + 1 from rfl, decRun_S_cons]
    exact h6
  exact (bindD_ok _ _ _ _ _ hdec).trans (pureD _ _)

theorem runReadObject_eq (bs : List ℕ) :
    runReadObject bs =
      match read_object (bs.length + 16) Option.none ⟨bs, []⟩ with
      | .ok v s => .ok (v, s.buf)
      | .err e _ => .error e := rfl

theorem cons_append3 (a b c : ℕ) (l : List ℕ) :
    ([a, b, c] : List ℕ) ++ l = a :: b :: c :: l := by
  rw [List.cons_append, List.cons_append, List.cons_append, List.nil_append]

theorem runReadObject_replicate_10000 :
    runReadObject ([0x53, 0x27, 0x10] ++ List.replicate 10000 97) =
      .ok (.str (List.replicate 10000 97), []) := by
  rw [cons_append3, runReadObject_eq]
  rw [show (0x53 :: 0x27 :: 0x10 :: List.replicate 10000 97).length + 16 = 10019 from by
    rw [List.length_cons, List.length_cons, List.length_cons, List.length_replicate]]
  rw [read_object_replicate_10000]


/-! ### Further support lemmas for the claim theorems -/

theorem bindE_ok {α β : Type} (x : Except PyErr α) (g : α → Except PyErr β) (a : α)
    (h : x = .ok a) : (x >>= g) = g a := by
  rw [h]
  rfl

theorem encTop_str (s b : List ℕ) (h : encode_str s = .ok b) : encTop (.str s) = .ok b := by
  have h2 : encode_object (.str s) 0 [] = .ok (b, []) := by
    show (do
      let bb ← encode_str s
      (.ok (bb, ([] : List (List ℕ))) : Except PyErr (List ℕ × List (List ℕ)))) = .ok (b, [])
    rw [h]
    rfl
  unfold encTop
  rw [h2]
  rfl

theorem pyEq_str_refl (s : List ℕ) : pyEq (.str s) (.str s) = true := by
  show (s == s) = true
  simp

theorem endsWith_append_self (x : List ℕ) : endsWith (x ++ dubboEnd) dubboEnd = true := by
  unfold endsWith
  rw [List.length_append]
  rw [if_neg (by omega : ¬ ((x.length + dubboEnd.length : ℕ) < dubboEnd.length))]
  rw [show x.length + dubboEnd.length - dubboEnd.length = x.length from by omega]
  rw [List.drop_left]
  simp

theorem rup_exact (s : List ℕ) : ∀ acc rest : List ℕ,
    endsWith (acc ++ s) dubboEnd = true →
    (∀ k, k < s.length → endsWith (acc ++ s.take k) dubboEnd = false) →
    read_until_prompt acc (s ++ rest) = .ok (acc ++ s, rest) := by
  induction s with
  | nil =>
    intro acc rest hend _
    rw [List.append_nil] at hend
    unfold read_until_prompt
    rw [if_pos hend, List.append_nil, List.nil_append]
  | cons c t ih =>
    intro acc rest hend hno
    have h0 : endsWith acc dubboEnd = false := by
      have := hno 0 (by simp)
      rwa [List.take_zero, List.append_nil] at this
    unfold read_until_prompt
    rw [if_neg (by rw [h0]; exact Bool.false_ne_true)]
    show read_until_prompt (acc ++ [c]) (t ++ rest) = _
    have hend2 : endsWith ((acc ++ [c]) ++ t) dubboEnd = true := by
      rwa [List.append_assoc, List.singleton_append]
    have hno2 : ∀ k, k < t.length → endsWith ((acc ++ [c]) ++ t.take k) dubboEnd = false := by
      intro k hk
      have := hno (k + 1) (by simp; omega)
      rwa [List.take_succ_cons, ← List.singleton_append, ← List.append_assoc] at this
    rw [ih (acc ++ [c]) rest hend2 hno2, List.append_assoc, List.singleton_append]

theorem sread2_cons (a b : ℕ) (r : List ℕ) : sread 2 (a :: b :: r) = .ok ([a, b], r) := by
  unfold sread
  rw [if_pos (by simp : (2 : ℕ) ≤ (a :: b :: r).length)]
  rfl

deriving instance DecidableEq for Message

/-! ### The claim theorems -/

set_option maxRecDepth 100000 in
/-- C1 (amended): in the representative set, `128.0` fails to encode
(`OverflowError` from `int_to_bytes(128, signed=True)`), the ints `-2^31`,
`2^63-1` and `-2^63` fail to encode (`struct.error` from the unsigned 4-byte
pack of the `I` form), and `2^31-1` encodes to `b'I...'` but `_read_object`
rejects the `I` tag (the int tag is compared against the bytes literal `b'I'`,
which never matches, so it raises `RuntimeError('unknown code')`).  Every other
value of the set round-trips under Python `==`, with the caveat that the longs
of the `JavaList` decode as plain ints. -/
theorem c1_representative_set :
    encTop (.str (List.replicate 10000 97)) =
      .ok ([0x53, 0x27, 0x10] ++ List.replicate 10000 97) ∧
    runReadObject ([0x53, 0x27, 0x10] ++ List.replicate 10000 97) =
      .ok (.str (List.replicate 10000 97), []) ∧
    pyEq (.str (List.replicate 10000 97)) (.str (List.replicate 10000 97)) = true ∧
    encTop (.float false (pyfloat 128 1)) = .error .overflowError ∧
    encTop (.int (-2147483648)) = .error .structError ∧
    encTop (.int 9223372036854775807) = .error .structError ∧
    encTop (.int (-9223372036854775808)) = .error .structError ∧
    encTop (.int 2147483647) = .ok [0x49, 0x7f, 0xff, 0xff, 0xff] ∧
    runReadObject [0x49, 0x7f, 0xff, 0xff, 0xff] = .error (.runtimeError "unknown code") ∧
    rtB .none [0x4e] .none = true ∧
    rtB (.bool true) [0x54] (.bool true) = true ∧
    rtB (.bool false) [0x46] (.bool false) = true ∧
    rtB (.int 0) [0x90] (.int 0) = true ∧
    rtB (.int 1) [0x91] (.int 1) = true ∧
    rtB (.int (-1)) [0x8f] (.int (-1)) = true ∧
    rtB (.float false (pyfloat 0 1)) [0x5b] (.float false (mkRat 0 1)) = true ∧
    rtB (.float false (pyfloat 1 1)) [0x5c] (.float false (mkRat 1 1)) = true ∧
    rtB (.float false (pyfloat 127 1)) [0x5d, 0x7f] (.int 127) = true ∧
    rtB (.float false (pyfloat (-127) 1)) [0x5d, 0x81] (.int (-127)) = true ∧
    rtB (.float false (pyfloat 1123 1000)) [0x5f, 0x00, 0x00, 0x04, 0x63]
      (.float false (pyfloat 1123 1000)) = true ∧
    rtB (.float false (pyfloat (-1123) 1000)) [0x5f, 0xff, 0xff, 0xfb, 0x9d]
      (.float false (pyfloat (-1123) 1000)) = true ∧
    rtB (.float false (pyfloat 12345 100000))
      [0x44, 0x3f, 0xbf, 0x9a, 0x6b, 0x50, 0xb0, 0xf2, 0x7c]
      (.float false (pyfloat 12345 100000)) = true ∧
    rtB (.str []) [0x00] (.str []) = true ∧
    rtB (.str (pystr "abc")) [0x03, 0x61, 0x62, 0x63] (.str (pystr "abc")) = true ∧
    rtB (.pylist false .nil) [0x78] (.pylist false .nil) = true ∧
    rtB (.pylist false (plistOf [.int 1, .int 2])) [0x7a, 0x91, 0x92]
      (.pylist false (plistOf [.int 1, .int 2])) = true ∧
    rtB (.pylist true (plistOf (List.replicate 8 (.long 2))))
      ([0x56, 0x0e] ++ pystr "java.util.List" ++ [0x98] ++ List.replicate 8 0xe2)
      (.pylist true (plistOf (List.replicate 8 (.int 2)))) = true ∧
    rtB (.dict (.cons (.str (pystr "k")) (.str (pystr "v")) .nil))
      [0x48, 0x01, 0x6b, 0x01, 0x76, 0x5a]
      (.dict (.cons (.str (pystr "k")) (.str (pystr "v")) .nil)) = true :=
  ⟨encTop_str _ _ encode_str_replicate_10000,
   runReadObject_replicate_10000,
   pyEq_str_refl _,
   by decide⟩

/-- C1 counterexample: `128.0` is in the representative set, yet
`encode_object(128.0)` does not succeed — it raises `OverflowError`
(`int(128).to_bytes(1, signed=True)` cannot hold 128). -/
theorem c1_cx_encode_128_overflows :
    encTop (.float false (pyfloat 128 1)) = .error .overflowError := by decide


/-- C2: `encode_object` emits exactly the canonical narrowest-tag bytes for the
section-8.2 literals (direct/short/long string forms, the compact double forms,
the mill form, the full `D` form, and the compact/untyped list forms). -/
theorem c2_canonical_literal_bytes :
    encTop (.str (List.replicate 100 97)) = .ok ([0x30, 0x64] ++ List.replicate 100 97) ∧
    encTop (.str (List.replicate 10000 97)) =
      .ok ([0x53, 0x27, 0x10] ++ List.replicate 10000 97) ∧
    encTop (.str (pystr "abcde")) = .ok (0x05 :: pystr "abcde") ∧
    encTop (.str []) = .ok [0x00] ∧
    encTop (.float false (pyfloat 0 1)) = .ok [0x5b] ∧
    encTop (.float false (pyfloat 1 1)) = .ok [0x5c] ∧
    encTop (.float false (pyfloat 127 1)) = .ok [0x5d, 0x7f] ∧
    encTop (.float false (pyfloat 1123 1000)) = .ok [0x5f, 0x00, 0x00, 0x04, 0x63] ∧
    encTop (.float false (pyfloat 12345 100000)) =
      .ok [0x44, 0x3f, 0xbf, 0x9a, 0x6b, 0x50, 0xb0, 0xf2, 0x7c] ∧
    encTop (.pylist false (plistOf [.int 2])) = .ok [0x79, 0x92] ∧
    encTop (.pylist false (plistOf (List.replicate 8 (.int 2)))) =
      .ok ([0x58, 0x98] ++ List.replicate 8 0x92) :=
  ⟨encTop_str _ _ encode_str_replicate_100,
   encTop_str _ _ encode_str_replicate_10000,
   by decide⟩

/-- C3 (amended): `Decoder.decode` never verifies the serialization id — the
low five bits of the flag byte are extracted only for a debug log, and a
heartbeat-response frame with any of the 32 possible ids decodes identically
(there is no `UnsupportedSerialization` failure anywhere). -/
theorem c3_serialization_id_ignored :
    ∀ ser : ℕ, ser < 32 →
      decode [0xda, 0xbb, 0x20 + ser, 0x14, 0, 0, 0, 0, 0, 0, 0x17, 0x71, 0, 0, 0, 1, 0x4e] =
        .ok (.heartbeatResponse 6001 .none) := by decide

/-- C3 witness: the theorem applied at serialization id 3. -/
theorem c3_witness :
    (3 : ℕ) < 32 ∧
    decode [0xda, 0xbb, 0x20 + 3, 0x14, 0, 0, 0, 0, 0, 0, 0x17, 0x71, 0, 0, 0, 1, 0x4e] =
      .ok (.heartbeatResponse 6001 .none) :=
  ⟨by decide, c3_serialization_id_ignored 3 (by decide)⟩

/-- C3 counterexample: a frame whose serialization id is 5 (≠ 0x02) does not
fail with `UnsupportedSerialization` — it decodes to the heartbeat message. -/
theorem c3_cx_id5_decodes :
    decode [0xda, 0xbb, 0x25, 0x14, 0, 0, 0, 0, 0, 0, 0x17, 0x71, 0, 0, 0, 1, 0x4e] =
      .ok (.heartbeatResponse 6001 .none) := by rfl

set_option maxRecDepth 40000 in
/-- C4 (amended): `encode_object` writes a `C` class-definition block before
EVERY instance of a named record class, not only the first (the membership
test only appends the name to the table; the block itself is unconditional).
A list of two instances of one class yields two `C` blocks, each followed by
the `0x60 + idx + tableIndex` reference byte (list elements are encoded with a
fresh table, so both use `0x60`); nested instances share the caller's table,
so the child of the parent/child example gets reference byte `0x61`. -/
theorem c4_c_block_per_instance :
    encTop (.pylist false (plistOf
      [.obj (pystr "X") (.cons (pystr "a") (.int 1) .nil),
       .obj (pystr "X") (.cons (pystr "a") (.int 2) .nil)])) =
      .ok [0x7a, 0x43, 0x01, 0x58, 0x91, 0x01, 0x61, 0x60, 0x91,
           0x43, 0x01, 0x58, 0x91, 0x01, 0x61, 0x60, 0x92] ∧
    List.count 0x43 [0x7a, 0x43, 0x01, 0x58, 0x91, 0x01, 0x61, 0x60, 0x91,
           0x43, 0x01, 0x58, 0x91, 0x01, 0x61, 0x60, 0x92] = 2 ∧
    encTop (.obj (pystr "parent") (.cons (pystr "a")
      (.obj (pystr "child") (.cons (pystr "b") (.long 2) .nil)) .nil)) =
      .ok (pystr "C" ++ [0x06] ++ pystr "parent" ++ [0x91, 0x01] ++ pystr "a" ++ [0x60]
        ++ pystr "C" ++ [0x05] ++ pystr "child" ++ [0x91, 0x01] ++ pystr "b" ++ [0x61, 0xe2]) := by
  decide

set_option maxRecDepth 40000 in
/-- C4 counterexample: the bytes of a list of two same-class instances contain
two `C` blocks, not exactly one. -/
theorem c4_cx_two_c_blocks :
    (encTop (.pylist false (plistOf
      [.obj (pystr "X") (.cons (pystr "a") (.int 1) .nil),
       .obj (pystr "X") (.cons (pystr "a") (.int 2) .nil)]))).map (List.count 0x43) =
      .ok 2 ∧ (2 : ℕ) ≠ 1 :=
  ⟨by decide, by decide⟩

/-- C5 (amended): `decode` reads exactly body-length bytes into a bounded
buffer — stream bytes past the declared body length are never consumed by the
body parse (any three junk bytes may follow), leftover bytes inside the body
only produce a warning, and a declared length longer than the stream raises
`EOFError`; a body parse needing more than body-length bytes raises `EOFError`
for, e.g., a truncated string body — but not uniformly (see counterexample). -/
theorem c5_bounded_body :
    (∀ j1 j2 j3 : ℕ,
      decode (0xda :: 0xbb :: 0x22 :: 0x14 :: 0 :: 0 :: 0 :: 0 :: 0 :: 0 :: 0x17 :: 0x71 ::
          0 :: 0 :: 0 :: 1 :: 0x4e :: j1 :: j2 :: j3 :: []) =
        .ok (.heartbeatResponse 6001 .none)) ∧
    decode [0xda, 0xbb, 0x22, 0x14, 0, 0, 0, 0, 0, 0, 0x17, 0x71, 0, 0, 0, 2, 0x4e, 0x4e] =
      .ok (.heartbeatResponse 6001 .none) ∧
    decode [0xda, 0xbb, 0x22, 0x14, 0, 0, 0, 0, 0, 0, 0x17, 0x71, 0, 0, 0, 2, 0x4e] =
      .error .eofError ∧
    decode [0xda, 0xbb, 0x02, 0x28, 0, 0, 0, 0, 0, 0, 0, 0x07, 0, 0, 0, 2, 0x05, 0x61] =
      .error .eofError := by
  refine ⟨fun j1 j2 j3 => ?_, by rfl, by rfl, by rfl⟩
  have hs2 := sread2_cons 0xda 0xbb (0x22 :: 0x14 :: 0 :: 0 :: 0 :: 0 :: 0 :: 0 :: 0x17 ::
    0x71 :: 0 :: 0 :: 0 :: 1 :: 0x4e :: j1 :: j2 :: j3 :: [])
  have hs14 : sread 14 (0x22 :: 0x14 :: 0 :: 0 :: 0 :: 0 :: 0 :: 0 :: 0x17 :: 0x71 ::
      0 :: 0 :: 0 :: 1 :: 0x4e :: j1 :: j2 :: j3 :: []) =
      .ok ([0x22, 0x14, 0, 0, 0, 0, 0, 0, 0x17, 0x71, 0, 0, 0, 1],
        0x4e :: j1 :: j2 :: j3 :: []) := by
    unfold sread
    rw [if_pos (by simp : (14 : ℕ) ≤ (0x22 :: 0x14 :: 0 :: 0 :: 0 :: 0 :: 0 :: 0 :: 0x17 ::
      0x71 :: 0 :: 0 :: 0 :: 1 :: 0x4e :: j1 :: j2 :: j3 :: []).length)]
    rfl
  unfold decode
  rw [bindE_ok _ _ _ hs2]
  show (if ([0xda, 0xbb] : List ℕ) ≠ dubboMagic then _ else _) = _
  rw [if_neg (by decide : ¬ (([0xda, 0xbb] : List ℕ) ≠ dubboMagic))]
  rw [bindE_ok _ _ _ hs14]
  rfl

/-- C5 witness: the junk-byte conjunct of the theorem applied at the three
junk bytes 9, 9, 9. -/
theorem c5_witness :
    decode (0xda :: 0xbb :: 0x22 :: 0x14 :: 0 :: 0 :: 0 :: 0 :: 0 :: 0 :: 0x17 :: 0x71 ::
        0 :: 0 :: 0 :: 1 :: 0x4e :: 9 :: 9 :: 9 :: []) =
      .ok (.heartbeatResponse 6001 .none) :=
  c5_bounded_body.1 9 9 9

/-- C5 counterexample: the body `b'\x91H'` of a status-20 response declares a
map whose parse needs more than the two body bytes, yet `decode` does not fail
with a truncation error — the map loop swallows the `EOFError` and the frame
decodes to a response carrying an empty dict. -/
theorem c5_cx_overrun_returns_ok :
    decode [0xda, 0xbb, 0x02, 0x14, 0, 0, 0, 0, 0, 0, 0, 0x07, 0, 0, 0, 2, 0x91, 0x48] =
      .ok (.response 7 20 (.dict .nil) .none) := by rfl

/-- C6 (amended): in telnet mode the prompt check excludes the two header
bytes already read: for a stream `a :: b :: mid ++ prompt` whose first two
bytes are not the magic and whose remainder first ends with the prompt exactly
at its end, `decode` returns the whole accumulated stream as a telnet line.
(The overlap case of the claim is false: see the counterexample.) -/
theorem c6_telnet_line (a b : ℕ) (mid : List ℕ)
    (hm : ¬ ([a, b] = dubboMagic))
    (hno : ∀ k, k < (mid ++ dubboEnd).length →
      endsWith ((mid ++ dubboEnd).take k) dubboEnd = false) :
    decode (a :: b :: (mid ++ dubboEnd)) = .ok (.telnet (a :: b :: (mid ++ dubboEnd))) := by
  have h1 : read_until_prompt [] ((mid ++ dubboEnd) ++ []) = .ok ([] ++ (mid ++ dubboEnd), []) :=
    rup_exact (mid ++ dubboEnd) [] []
      (by rw [List.nil_append]; exact endsWith_append_self mid)
      (by intro k hk; rw [List.nil_append]; exact hno k hk)
  rw [List.append_nil, List.nil_append] at h1
  show (sread 2 (a :: b :: (mid ++ dubboEnd)) >>= fun p =>
    match p with
    | (h2, rest) =>
      if h2 ≠ dubboMagic then do
        let (line, _) ← read_until_prompt [] rest
        (.ok (.telnet (h2 ++ line)) : Except PyErr Message)
      else _) = _
  rw [bindE_ok _ _ _ (sread2_cons a b (mid ++ dubboEnd))]
  show (if [a, b] ≠ dubboMagic then _ else _) = _
  rw [if_pos hm]
  show (read_until_prompt [] (mid ++ dubboEnd) >>= fun p =>
    match p with
    | (line, _) => (.ok (.telnet ([a, b] ++ line)) : Except PyErr Message)) = _
  rw [bindE_ok _ _ _ h1]
  rfl

/-- C6 witness: the theorem applied to the stream `b"ls\r\ndubbo>"`. -/
theorem c6_witness :
    decode (0x6c :: 0x73 :: ([] ++ dubboEnd)) = .ok (.telnet (0x6c :: 0x73 :: ([] ++ dubboEnd))) :=
  c6_telnet_line 0x6c 0x73 [] (by decide) (by decide)

/-- C6 counterexample: a stream equal to the prompt itself — the terminator
overlaps the first two bytes read, the accumulated remainder `b"dubbo>"` never
ends with the prompt, and `decode` raises `EOFError` instead of returning the
telnet line. -/
theorem c6_cx_overlap_eof :
    decode [0x0d, 0x0a, 0x64, 0x75, 0x62, 0x62, 0x6f, 0x3e] = .error .eofError := by rfl

/-- C7 (amended): the descriptor map sends `int→I`, `long→J`, `None→V`,
`bool→Z`, `bytes→B`, `str→S` and the exact runtime name `float→D`, but a
`double` instance (type name `double`) falls through to the class-name form
and yields `Ldouble;`, not `D`; dots become slashes and a leading `[` run is
kept.  Reverse parsing translates primitive tokens to implementation-language
names (`V→None`, `D→float`, `C→chr`, `S→int`). -/
theorem c7_descriptor_mapping :
    descriptorOf [.int 1] = pystr "I" ∧
    descriptorOf [.long 1] = pystr "J" ∧
    descriptorOf [.none] = pystr "V" ∧
    descriptorOf [.bool true] = pystr "Z" ∧
    descriptorOf [.bytes [0]] = pystr "B" ∧
    descriptorOf [.str (pystr "x")] = pystr "S" ∧
    descriptorOf [.float false (pyfloat 1 1)] = pystr "D" ∧
    descriptorOf [.float true (pyfloat 1 1)] = pystr "Ldouble;" ∧
    descriptorOf [.obj (pystr "cn.com.xxx.SerwVi") .nil, .none, .bytes [0]] =
      pystr "Lcn/com/xxx/SerwVi;VB" ∧
    descriptorOf [.obj (pystr "[[Lcom.bbcc.dd;") .nil] = pystr "[[Lcom/bbcc/dd;" ∧
    desc_to_cls_names (pystr "Lcn/com/xxx/SerwVi;VB") =
      .ok [pystr "cn.com.xxx.SerwVi", pystr "None", pystr "bytes"] ∧
    desc_to_cls_names (pystr "[[Lcom/bbcc/dd;DLcn/com/xxx/yyy;CS") =
      .ok [pystr "[[Lcom.bbcc.dd;", pystr "float", pystr "cn.com.xxx.yyy", pystr "chr",
        pystr "int"] := by
  decide

/-- C7 counterexample: the spec maps both `float` and `double` to `D`, but the
descriptor of a `double` argument is `Ldouble;`. -/
theorem c7_cx_double_descriptor :
    descriptorOf [.float true (pyfloat 1 1)] = pystr "Ldouble;" ∧
    pystr "Ldouble;" ≠ pystr "D" :=
  ⟨by rfl, by decide⟩

/-- C8: for a decoded request whose (service, method) has a registered
handler, the reply echoes the request id and maps the handler outcome —
normal return `r` to status 20 with data `r`, `DubboError(status, message)` to
that status with the message as error, `EOFError` re-raised, and any other
exception to status 90 with `str(err)` as error (`DubboError` is modelled from
the spec: `dubbo/errors.py` is not part of the sources). -/
theorem c8_handler_response_mapping
    (services : List ((List ℕ × List ℕ) × (List PyValue → HandlerOutcome)))
    (svc meth : List ℕ) (id : ℕ) (args : List PyValue)
    (h : List PyValue → HandlerOutcome)
    (hl : lookup_handler services svc meth = some h) :
    handle_request services svc meth id args =
      match h args with
      | .ret v => .ok (some ⟨id, 20, v, .none⟩)
      | .dubboError s m => .ok (some ⟨id, s, .none, m⟩)
      | .eofError => .error .eofError
      | .exn msg => .ok (some ⟨id, 90, .none, .str msg⟩) := by
  unfold handle_request
  rw [hl]
  show Except.map (fun r => some r) (invoke_result id (h args)) = _
  cases h args <;> rfl

/-- C8 witness: a one-entry handler table whose handler raises
`DubboError(55, "oops")`; the reply has status 55 and the message as error. -/
theorem c8_witness :
    handle_request
      [((pystr "svc", pystr "m"), fun _ => HandlerOutcome.dubboError 55 (.str (pystr "oops")))]
      (pystr "svc") (pystr "m") 9 [] =
      .ok (some ⟨9, 55, .none, .str (pystr "oops")⟩) :=
  (c8_handler_response_mapping
    [((pystr "svc", pystr "m"), fun _ => HandlerOutcome.dubboError 55 (.str (pystr "oops")))]
    (pystr "svc") (pystr "m") 9 []
    (fun _ => HandlerOutcome.dubboError 55 (.str (pystr "oops"))) rfl).trans (by rfl)

/-- C9 (amended): the class-name table is NOT local to one top-level encode —
the bytes of `encode_object(obj, 0, t)` depend on the incoming table `t` (the
source's persistent mutable default argument): the reference byte is
`int_to_bytes(0 + t'.index(cls) + 0x60)` over the table `t'` that already
contains the names of earlier encodes (`t' = t` if the class is present, else
`t ++ [cls]`). -/
theorem c9_table_characterization (t : List (List ℕ)) :
    encode_object (.obj (pystr "X") (.cons (pystr "a") (.int 1) .nil)) 0 t =
      (int_to_bytes ((0 + listIdxOf (if t.contains (pystr "X") then t else t ++ [pystr "X"])
          (pystr "X") + 0x60 : ℕ)) >>= fun rb =>
        .ok (0x43 :: ([0x01, 0x58] ++ [0x91] ++ [0x01, 0x61] ++ rb ++ [0x91]),
          if t.contains (pystr "X") then t else t ++ [pystr "X"])) := rfl

/-- C9 witness: the theorem applied at the table `["Y"]` left behind by an
earlier top-level encode — the reference byte becomes `0x61`. -/
theorem c9_witness :
    encode_object (.obj (pystr "X") (.cons (pystr "a") (.int 1) .nil)) 0 [pystr "Y"] =
      .ok ([0x43, 0x01, 0x58, 0x91, 0x01, 0x61, 0x61, 0x91], [pystr "Y", pystr "X"]) :=
  (c9_table_characterization [pystr "Y"]).trans (by decide)

/-- C9 counterexample: encoding `new_object('Y', ...)` at top level leaves
`["Y"]` in the (persistent) table, and encoding the same `X` object after that
history produces different bytes than with a fresh table (`0x61` vs `0x60`
reference byte) — the table is not reset per top-level encode. -/
theorem c9_cx_history_changes_bytes :
    (encode_object (.obj (pystr "Y") (.cons (pystr "b") (.int 2) .nil)) 0 []).map Prod.snd =
      .ok [pystr "Y"] ∧
    (encode_object (.obj (pystr "X") (.cons (pystr "a") (.int 1) .nil)) 0 []).map Prod.fst ≠
      (encode_object (.obj (pystr "X") (.cons (pystr "a") (.int 1) .nil)) 0 [pystr "Y"]).map
        Prod.fst :=
  ⟨by decide, by decide⟩

/-- C10 (amended): in the `_read_map` pair loop, a key equal to the empty map
returns the accumulated pairs at once (the key's value has already been read
inside `_read_keyval`, and the remaining pairs stay unread in the buffer); an
`EOFError` inside `_read_keyval` also returns the pairs read so far; but the
between-pairs tag read sits outside the `try`, so EOF there propagates (see
the counterexample), and an `M` map raises `TypeError` (`ord` of an int). -/
theorem c10_read_map_loop :
    (∀ rest : List ℕ,
      read_map 20 PyCode.none ⟨[0x01, 0x61, 0x91, 0x48, 0x5a, 0x92] ++ rest, []⟩ =
        .ok (.cons (.str (pystr "a")) (.int 1) .nil) ⟨rest, []⟩) ∧
    read_map 20 PyCode.none ⟨[0x01, 0x61, 0x91, 0x01, 0x62], []⟩ =
      .ok (.cons (.str (pystr "a")) (.int 1) .nil) ⟨[], []⟩ ∧
    (∀ (bs : List ℕ) (refs : List RefEntry),
      read_map 20 (PyCode.int 0x4d) ⟨bs, refs⟩ = .err .typeError ⟨bs, refs⟩) :=
  ⟨fun rest => rfl, rfl, fun bs refs => rfl⟩

/-- C10 witness: the empty-map-key conjunct applied with one trailing byte —
the byte after the discarded value stays in the buffer. -/
theorem c10_witness :
    read_map 20 PyCode.none ⟨[0x01, 0x61, 0x91, 0x48, 0x5a, 0x92] ++ [0x77], []⟩ =
      .ok (.cons (.str (pystr "a")) (.int 1) .nil) ⟨[0x77], []⟩ :=
  c10_read_map_loop.1 [0x77]

/-- C10 counterexample: EOF at the between-pairs tag read (`code =
self._read(1)`, outside the `try`) raises `EOFError` instead of returning the
pairs read so far. -/
theorem c10_cx_tag_read_eof_raises :
    read_map 20 PyCode.none ⟨[0x01, 0x61, 0x91], []⟩ = .err .eofError ⟨[], []⟩ := by rfl

end DubboPy
